import Mathlib

/-!
Verification development for the olimar-gh-app workflow dispatch/monitor
subsystem.  The definitions below are a shallow embedding of:

* `src/packages/workflow-db/src/index.ts` (the Persistence Gateway:
  `insertWorkflowRun`, `updateWorkflowRunById`, `updateWorkflowRunByRunId`,
  `getWorkflowRunByRunId`),
* `src/src/webhooks/workflow-runner.ts` (`dispatchWorkflow`,
  `monitorWorkflowRun`, `dispatchAndMonitorWorkflow`).

The database is modelled as a list of `WorkflowRun` rows.  External effects
(the Workflow Control API, the database round trips) are driven by explicit
oracles: `insertOutcome` for the dispatcher's insert, `dispatchOk` for the
dispatch endpoint, and a per-attempt `fetch` oracle for the monitor's
`listRuns` polling.  Timestamps are natural numbers supplied by a clock
oracle.  The availability flag of `src/src/db/index.ts`
(`isDatabaseAvailable`) is threaded as an explicit boolean `avail`.
The monitor catches and swallows database get/update errors at every call
site: `monitorStep`/`monitorWorkflowRun` model the executions in which
those calls succeed, and the fault-aware `monitorStepF`/`monitorWorkflowRunF`
add per-call storage-failure oracles under which a thrown storage error is
swallowed, the corresponding write does not land, and the loop continues.
Each function also emits the trace of external calls it performs, so
ordering and availability-hyperproperties can be stated.
-/

namespace Olimar

/-- Workflow run status, `WorkflowRunStatus` in the source:
`'queued' | 'in_progress' | 'completed'`. -/
inductive Status where
  | queued
  | in_progress
  | completed
deriving DecidableEq, Repr

/-- Workflow run conclusion, `WorkflowRunConclusion` in the source (the
nullable-ness is modelled with `Option Conclusion` at use sites). -/
inductive Conclusion where
  | success
  | failure
  | cancelled
  | skipped
  | timed_out
  | action_required
deriving DecidableEq, Repr

/-- A row of the `workflow_runs` table (`WorkflowRun` in the source).
Timestamps are `Nat`; nullable columns are `Option`. -/
structure WorkflowRun where
  id : Nat
  github_org : String
  github_repo : String
  workflow_name : String
  workflow_id : Nat
  run_id : Option Nat
  commit_sha : String
  commit_ref : String
  status : Status
  conclusion : Option Conclusion
  triggered_at : Nat
  started_at : Option Nat
  completed_at : Option Nat
  updated_at : Nat
deriving DecidableEq, Repr

/-- The partial-update object accepted by `updateWorkflowRunById`.  An outer
`none` means the field was not supplied (TypeScript `undefined`), so the
column is left alone.  `conclusion` is doubly optional because a supplied
conclusion may itself be SQL `NULL`. -/
structure UpdateById where
  run_id : Option Nat := none
  status : Option Status := none
  conclusion : Option (Option Conclusion) := none
  started_at : Option Nat := none
  completed_at : Option Nat := none
deriving DecidableEq, Repr

/-- The partial-update object accepted by `updateWorkflowRunByRunId`
(same shape but without `run_id`). -/
structure UpdateByRunId where
  status : Option Status := none
  conclusion : Option (Option Conclusion) := none
  started_at : Option Nat := none
  completed_at : Option Nat := none
deriving DecidableEq, Repr

/-- Whether `updateWorkflowRunById` has any field to write (the
`fields.length === 0` early-return check in the source). -/
def UpdateById.hasFields (u : UpdateById) : Bool :=
  u.run_id.isSome || u.status.isSome || u.conclusion.isSome ||
    u.started_at.isSome || u.completed_at.isSome

/-- Whether `updateWorkflowRunByRunId` has any field to write. -/
def UpdateByRunId.hasFields (u : UpdateByRunId) : Bool :=
  u.status.isSome || u.conclusion.isSome || u.started_at.isSome ||
    u.completed_at.isSome

/-- Apply an `UpdateById` to a single row: supplied fields are written, the
`updated_at` audit column is refreshed to `now`, everything else is kept
(the generated `UPDATE workflow_runs SET ... , updated_at = NOW()`). -/
def applyById (u : UpdateById) (now : Nat) (r : WorkflowRun) : WorkflowRun :=
  { r with
    run_id := match u.run_id with
      | some v => some v
      | none => r.run_id
    status := u.status.getD r.status
    conclusion := u.conclusion.getD r.conclusion
    started_at := match u.started_at with
      | some v => some v
      | none => r.started_at
    completed_at := match u.completed_at with
      | some v => some v
      | none => r.completed_at
    updated_at := now }

/-- Apply an `UpdateByRunId` to a single row. -/
def applyByRunId (u : UpdateByRunId) (now : Nat) (r : WorkflowRun) : WorkflowRun :=
  { r with
    status := u.status.getD r.status
    conclusion := u.conclusion.getD r.conclusion
    started_at := match u.started_at with
      | some v => some v
      | none => r.started_at
    completed_at := match u.completed_at with
      | some v => some v
      | none => r.completed_at
    updated_at := now }

/-- `updateWorkflowRunById(id, updates)`: if no field is supplied, no SQL is
issued and the call returns `false`; otherwise every row whose `id` matches
is updated and the call reports whether any row matched (`rowCount > 0`). -/
def updateWorkflowRunById (db : List WorkflowRun) (i : Nat) (u : UpdateById)
    (now : Nat) : List WorkflowRun × Bool :=
  if u.hasFields then
    (db.map fun r => if r.id = i then applyById u now r else r,
     db.any fun r => r.id = i)
  else
    (db, false)

/-- `updateWorkflowRunByRunId(runId, updates)`: same contract keyed on the
external `run_id` column. -/
def updateWorkflowRunByRunId (db : List WorkflowRun) (runId : Nat)
    (u : UpdateByRunId) (now : Nat) : List WorkflowRun × Bool :=
  if u.hasFields then
    (db.map fun r => if r.run_id = some runId then applyByRunId u now r else r,
     db.any fun r => r.run_id = some runId)
  else
    (db, false)

/-- `getWorkflowRunByRunId(runId)`: `SELECT * FROM workflow_runs WHERE
run_id = $1 ... LIMIT 1`, `null` when no row matches. -/
def getWorkflowRunByRunId (db : List WorkflowRun) (runId : Nat) :
    Option WorkflowRun :=
  db.find? fun r => r.run_id = some runId

/-- The insert payload of `insertWorkflowRun` (the `Omit<WorkflowRun, 'id' |
'created_at' | 'updated_at'>` argument type). -/
structure NewWorkflowRun where
  github_org : String
  github_repo : String
  workflow_name : String
  workflow_id : Nat
  run_id : Option Nat
  commit_sha : String
  commit_ref : String
  status : Status
  conclusion : Option Conclusion
  triggered_at : Nat
  started_at : Option Nat
  completed_at : Option Nat
deriving DecidableEq, Repr

/-- The row created by `insertWorkflowRun` once the database has assigned
the sequential id `newId`. -/
def NewWorkflowRun.toRow (nr : NewWorkflowRun) (newId : Nat) : WorkflowRun :=
  { id := newId
    github_org := nr.github_org
    github_repo := nr.github_repo
    workflow_name := nr.workflow_name
    workflow_id := nr.workflow_id
    run_id := nr.run_id
    commit_sha := nr.commit_sha
    commit_ref := nr.commit_ref
    status := nr.status
    conclusion := nr.conclusion
    triggered_at := nr.triggered_at
    started_at := nr.started_at
    completed_at := nr.completed_at
    updated_at := nr.triggered_at }

/-- `insertWorkflowRun`: append the new row (the `INSERT ... RETURNING id`). -/
def insertWorkflowRun (db : List WorkflowRun) (nr : NewWorkflowRun)
    (newId : Nat) : List WorkflowRun :=
  db ++ [nr.toRow newId]

/-- Externally observable calls issued by the dispatcher/monitor: calls to
the Workflow Control API (`apiDispatch`, `apiListRuns`) and to the
Persistence Gateway (`dbInsert`, `dbGetByRunId`, `dbUpdateById`). -/
inductive Event where
  | dbInsert (nr : NewWorkflowRun)
  | dbGetByRunId (runId : Nat)
  | dbUpdateById (id : Nat) (u : UpdateById)
  | apiDispatch (owner repo : String) (workflowId : Nat) (ref : String)
      (inputs : List (String × String))
  | apiListRuns (owner repo : String) (workflowId : Nat) (perPage : Nat)
deriving DecidableEq, Repr

/-- Whether an event is a call to the external Workflow Control API. -/
def Event.isApi : Event → Bool
  | .apiDispatch _ _ _ _ _ => true
  | .apiListRuns _ _ _ _ => true
  | _ => false

/-- The subtrace of Workflow Control API calls. -/
def apiEvents (t : List Event) : List Event :=
  t.filter Event.isApi

/-- The subtrace of Persistence Gateway calls. -/
def dbEvents (t : List Event) : List Event :=
  t.filter fun e => !e.isApi

instance exceptDecEq {ε α : Type} [DecidableEq ε] [DecidableEq α] :
    DecidableEq (Except ε α) := fun a b =>
  match a, b with
  | .ok x, .ok y =>
      if h : x = y then .isTrue (by rw [h]) else
        .isFalse (by intro hc; cases hc; exact h rfl)
  | .error x, .error y =>
      if h : x = y then .isTrue (by rw [h]) else
        .isFalse (by intro hc; cases hc; exact h rfl)
  | .ok _, .error _ => .isFalse (by intro hc; cases hc)
  | .error _, .ok _ => .isFalse (by intro hc; cases hc)

/-- The parameters of `dispatchWorkflow` (`WorkflowDispatchParams`). -/
structure DispatchParams where
  owner : String
  repo : String
  workflowId : Nat
  workflowName : String
  workflowPath : String
  ref : String
  inputs : List (String × String)
  commitSha : String
deriving DecidableEq, Repr

/-- The record fields the dispatcher inserts before calling the dispatch
endpoint: `status: 'queued'`, `triggered_at: new Date()`, no `run_id`. -/
def DispatchParams.newRun (p : DispatchParams) (now : Nat) : NewWorkflowRun :=
  { github_org := p.owner
    github_repo := p.repo
    workflow_name := p.workflowName
    workflow_id := p.workflowId
    run_id := none
    commit_sha := p.commitSha
    commit_ref := p.ref
    status := .queued
    conclusion := none
    triggered_at := now
    started_at := none
    completed_at := none }

/-- Outcome of one `dispatchWorkflow` call: the database after the call, the
trace of external calls, and the returned record id (`.error ()` when the
dispatch endpoint rejected and the error was rethrown). -/
structure DispatchOut where
  db : List WorkflowRun
  events : List Event
  result : Except Unit (Option Nat)
deriving DecidableEq, Repr

/-- `dispatchWorkflow` (src/src/webhooks/workflow-runner.ts, lines 29-81).
`avail` is the `isDatabaseAvailable()` flag; `insertOutcome` is the database
insert oracle (`.ok newId` for a successful `INSERT ... RETURNING id`,
`.error ()` for a thrown storage error, which the source catches and treats
as non-fatal); `dispatchOk` tells whether the `POST ...//dispatches` endpoint
accepted the call.  On endpoint failure the error is rethrown after logging. -/
def dispatchWorkflow (avail : Bool) (insertOutcome : Except Unit Nat)
    (dispatchOk : Bool) (now : Nat) (p : DispatchParams)
    (db : List WorkflowRun) : DispatchOut :=
  let ins : List WorkflowRun × Option Nat × List Event :=
    if avail then
      match insertOutcome with
      | .ok newId =>
          (insertWorkflowRun db (p.newRun now) newId, some newId,
           [Event.dbInsert (p.newRun now)])
      | .error _ => (db, none, [Event.dbInsert (p.newRun now)])
    else
      (db, none, [])
  let ev := ins.2.2 ++ [Event.apiDispatch p.owner p.repo p.workflowId p.ref p.inputs]
  if dispatchOk then
    { db := ins.1, events := ev, result := .ok ins.2.1 }
  else
    { db := ins.1, events := ev, result := .error () }

/-- One run as returned by the Workflow Control API's `listRuns`
(`latestRun` in the source: `id`, `status`, `conclusion`, `run_started_at`). -/
structure Run where
  id : Nat
  status : Status
  conclusion : Option Conclusion
  run_started_at : Option Nat
deriving DecidableEq, Repr

/-- The parameters of `monitorWorkflowRun` (`WorkflowMonitorParams`), minus
the record id which is threaded separately. -/
structure MonitorParams where
  owner : String
  repo : String
  workflowName : String
  workflowId : Nat
deriving DecidableEq, Repr

/-- The correlation update (workflow-runner.ts lines 129-134): write the
observed run id, its status, and — when the API reported one — the start
timestamp into the tracked record. -/
def correlationUpdate (run : Run) : UpdateById :=
  { run_id := some run.id
    status := some run.status
    started_at := run.run_started_at }

/-- The completion update (workflow-runner.ts lines 146-150): write
`status: 'completed'`, the observed conclusion (possibly null), and
`completed_at: new Date()`. -/
def completionUpdate (run : Run) (now : Nat) : UpdateById :=
  { status := some .completed
    conclusion := some run.conclusion
    completed_at := some now }

/-- The `updateWorkflowRunById` calls one poll iteration issues, in order,
given the most recent run it fetched.  The correlation update is guarded by
`isDatabaseAvailable() && dbRecordId !== null` and by
`getWorkflowRunByRunId(runId)` finding no row; the completion update, issued
when the fetched status is `completed`, is guarded only by availability and
a non-null record id. -/
def monitorStepCalls (avail : Bool) (rid : Option Nat) (run : Run)
    (now : Nat) (db : List WorkflowRun) : List (Nat × UpdateById) :=
  (match avail, rid with
   | true, some r =>
       if (getWorkflowRunByRunId db run.id).isNone then
         [(r, correlationUpdate run)]
       else []
   | _, _ => []) ++
  (if run.status = .completed then
     match avail, rid with
     | true, some r => [(r, completionUpdate run now)]
     | _, _ => []
   else [])

/-- Apply a list of update calls in order, returning the database state
after each call. -/
def applyCalls (now : Nat) (db : List WorkflowRun) :
    List (Nat × UpdateById) → List (List WorkflowRun)
  | [] => []
  | c :: cs =>
      let db1 := (updateWorkflowRunById db c.1 c.2 now).1
      db1 :: applyCalls now db1 cs

/-- Outcome of one poll iteration of the monitor. -/
structure StepOut where
  db : List WorkflowRun
  states : List (List WorkflowRun)
  events : List Event
  done : Bool
deriving DecidableEq, Repr

/-- One iteration of the monitor's poll loop (workflow-runner.ts lines
98-184).  `fr` is the `listRuns` oracle for this attempt: `.error ()` for a
thrown fetch error (logged, waited out, loop continues), `.ok []` for an
empty result page (wait and retry), `.ok (run :: _)` for a page whose head
is the most recent run.  `states` lists the database after each update call
this iteration performed; `done` reports whether the fetched status was
`completed`, which makes the monitor return.  This function models the
executions in which the database calls succeed; `monitorStepF` below adds
the swallowed storage-failure paths. -/
def monitorStep (avail : Bool) (rid : Option Nat) (mp : MonitorParams)
    (fr : Except Unit (List Run)) (now : Nat) (db : List WorkflowRun) :
    StepOut :=
  let listEv : List Event :=
    [Event.apiListRuns mp.owner mp.repo mp.workflowId 5]
  match fr with
  | .error _ => { db := db, states := [], events := listEv, done := false }
  | .ok [] => { db := db, states := [], events := listEv, done := false }
  | .ok (run :: _) =>
      let getEv : List Event :=
        if avail && rid.isSome then [Event.dbGetByRunId run.id] else []
      let calls := monitorStepCalls avail rid run now db
      let states := applyCalls now db calls
      { db := states.getLastD db
        states := states
        events := listEv ++ getEv ++ calls.map fun c => Event.dbUpdateById c.1 c.2
        done := decide (run.status = .completed) }

/-- Outcome of a whole monitor invocation: final database, all database
states after each individual update (`states`), the database at the end of
each completed poll iteration (`stepDbs`), the external-call trace, whether
a terminal run status was observed (`done`, `false` means the attempt
budget ran out), and the number of poll attempts consumed. -/
structure MonitorOut where
  db : List WorkflowRun
  states : List (List WorkflowRun)
  stepDbs : List (List WorkflowRun)
  events : List Event
  done : Bool
  attempts : Nat
deriving DecidableEq, Repr

/-- The monitor's poll loop: up to `fuel` attempts; each attempt consumes
one unit of the budget whether it fetched runs, saw an empty page, or caught
a transient fetch error.  The loop returns early exactly when an iteration
observes a `completed` run. -/
def monitorLoop (avail : Bool) (rid : Option Nat) (mp : MonitorParams) :
    (Nat → Except Unit (List Run)) → (Nat → Nat) → Nat →
    List WorkflowRun → MonitorOut
  | _, _, 0, db =>
      { db := db, states := [], stepDbs := [], events := [], done := false,
        attempts := 0 }
  | fetch, clock, fuel + 1, db =>
      let s := monitorStep avail rid mp (fetch 0) (clock 0) db
      if s.done then
        { db := s.db, states := s.states, stepDbs := [s.db],
          events := s.events, done := true, attempts := 1 }
      else
        let rest := monitorLoop avail rid mp (fun k => fetch (k + 1))
          (fun k => clock (k + 1)) fuel s.db
        { db := rest.db
          states := s.states ++ rest.states
          stepDbs := s.db :: rest.stepDbs
          events := s.events ++ rest.events
          done := rest.done
          attempts := rest.attempts + 1 }

/-- `monitorWorkflowRun` (workflow-runner.ts lines 86-187): after the 5s
warm-up sleep, poll up to `maxAttempts = 60` times at 10s intervals.  The
sleeps have no observable effect in this embedding; `fetch i`/`clock i` are
the `listRuns` result and wall-clock time of attempt `i`. -/
def monitorWorkflowRun (avail : Bool) (rid : Option Nat) (mp : MonitorParams)
    (fetch : Nat → Except Unit (List Run)) (clock : Nat → Nat)
    (db : List WorkflowRun) : MonitorOut :=
  monitorLoop avail rid mp fetch clock 60 db

/-- Whether one poll attempt's fetch result makes the monitor stop: a
non-empty page whose most recent run has status `completed` (the conclusion
value is not consulted, and errors or empty pages never stop the loop). -/
def pollDone (fr : Except Unit (List Run)) : Bool :=
  match fr with
  | .ok (run :: _) => decide (run.status = .completed)
  | _ => false

/-- Index of the first attempt, within the next `fuel` attempts, whose
predicate holds. -/
def firstIdx (p : Nat → Bool) : Nat → Option Nat
  | 0 => none
  | fuel + 1 =>
      if p 0 then some 0
      else (firstIdx (fun k => p (k + 1)) fuel).map (· + 1)

/-- Outcome of a fault-aware monitor invocation: final database, database
states after each landed write, iteration-end states, and the terminal
flag. -/
structure MonitorOutF where
  db : List WorkflowRun
  states : List (List WorkflowRun)
  stepDbs : List (List WorkflowRun)
  done : Bool
deriving DecidableEq, Repr

/-- Fault-aware variant of one monitor poll iteration.  In the source both
the correlation block (workflow-runner.ts lines 125-139) and the completion
block (lines 144-154) wrap their database round trips in try/catch: a
thrown storage error is logged and swallowed, the corresponding write does
not land, and the loop continues.  `corrOk = false` models the correlation
block's get-or-update throwing (no correlation write lands); `complOk =
false` models the completion update throwing (no completion write lands).
The result is the list of database states after each landed write together
with the terminal flag, which depends only on the fetched status.  With
`corrOk = complOk = true` this coincides with `monitorStep`
(`monitorStepF_all_ok` below). -/
def monitorStepF (avail : Bool) (rid : Option Nat)
    (fr : Except Unit (List Run)) (corrOk complOk : Bool) (now : Nat)
    (db : List WorkflowRun) : List (List WorkflowRun) × Bool :=
  match fr with
  | .error _ => ([], false)
  | .ok [] => ([], false)
  | .ok (run :: _) =>
      let calls :=
        (match avail, rid with
         | true, some r =>
             if corrOk && (getWorkflowRunByRunId db run.id).isNone then
               [(r, correlationUpdate run)]
             else []
         | _, _ => []) ++
        (if run.status = Status.completed then
           match avail, rid with
           | true, some r =>
               if complOk then [(r, completionUpdate run now)] else []
           | _, _ => []
         else [])
      (applyCalls now db calls, decide (run.status = Status.completed))

/-- Fault-aware monitor poll loop: like `monitorLoop`, with per-attempt
storage-failure oracles for the two guarded write blocks. -/
def monitorLoopF (avail : Bool) (rid : Option Nat) :
    (Nat → Except Unit (List Run)) → (Nat → Bool) → (Nat → Bool) →
    (Nat → Nat) → Nat → List WorkflowRun → MonitorOutF
  | _, _, _, _, 0, db =>
      { db := db, states := [], stepDbs := [], done := false }
  | fetch, corrOk, complOk, clock, fuel + 1, db =>
      let s := monitorStepF avail rid (fetch 0) (corrOk 0) (complOk 0)
        (clock 0) db
      if s.2 then
        { db := s.1.getLastD db, states := s.1,
          stepDbs := [s.1.getLastD db], done := true }
      else
        let rest := monitorLoopF avail rid (fun k => fetch (k + 1))
          (fun k => corrOk (k + 1)) (fun k => complOk (k + 1))
          (fun k => clock (k + 1)) fuel (s.1.getLastD db)
        { db := rest.db, states := s.1 ++ rest.states,
          stepDbs := s.1.getLastD db :: rest.stepDbs, done := rest.done }

/-- Fault-aware `monitorWorkflowRun`: the 60-attempt poll loop with
per-attempt storage-failure oracles. -/
def monitorWorkflowRunF (avail : Bool) (rid : Option Nat)
    (fetch : Nat → Except Unit (List Run)) (corrOk complOk : Nat → Bool)
    (clock : Nat → Nat) (db : List WorkflowRun) : MonitorOutF :=
  monitorLoopF avail rid fetch corrOk complOk clock 60 db

/-- The monitor parameters the orchestrator builds from its dispatch
parameters. -/
def DispatchParams.monitorParams (p : DispatchParams) : MonitorParams :=
  { owner := p.owner, repo := p.repo, workflowName := p.workflowName,
    workflowId := p.workflowId }

/-- Outcome of `dispatchAndMonitorWorkflow`: its result as seen by the
caller, the record id the background monitor was started with (`none` when
dispatch failed and no monitor was started), the eventual database state
and call trace. -/
structure OrchOut where
  result : Except Unit Unit
  monitorStarted : Option (Option Nat)
  db : List WorkflowRun
  events : List Event
deriving DecidableEq, Repr

/-- `dispatchAndMonitorWorkflow` (workflow-runner.ts lines 191-212): run the
dispatcher; if it throws, rethrow to the caller without starting the
monitor.  Otherwise start `monitorWorkflowRun` as an unawaited background
task whose rejection, if any, is caught and logged (`.catch(...)`) — so the
orchestrator's own result never depends on the monitor: `result` is `.ok ()`
in every monitored execution. -/
def dispatchAndMonitorWorkflow (avail : Bool) (insertOutcome : Except Unit Nat)
    (dispatchOk : Bool) (now : Nat) (p : DispatchParams)
    (fetch : Nat → Except Unit (List Run)) (clock : Nat → Nat)
    (db : List WorkflowRun) : OrchOut :=
  let d := dispatchWorkflow avail insertOutcome dispatchOk now p db
  match d.result with
  | .error _ =>
      { result := .error (), monitorStarted := none, db := d.db,
        events := d.events }
  | .ok rid =>
      let m := monitorWorkflowRun avail rid p.monitorParams fetch clock d.db
      { result := .ok (), monitorStarted := some rid, db := m.db,
        events := d.events ++ m.events }

/-- Structural decision procedure for `List.Forall₂`, so that concrete
instances evaluate inside the kernel. -/
def decForall₂ {α β : Type} {R : α → β → Prop} [d : ∀ a b, Decidable (R a b)] :
    (l₁ : List α) → (l₂ : List β) → Decidable (List.Forall₂ R l₁ l₂)
  | [], [] => .isTrue List.Forall₂.nil
  | [], _ :: _ => .isFalse fun h => by cases h
  | _ :: _, [] => .isFalse fun h => by cases h
  | a :: as, b :: bs =>
      match d a b, decForall₂ as bs with
      | .isTrue h1, .isTrue h2 => .isTrue (List.Forall₂.cons h1 h2)
      | .isFalse h1, _ => .isFalse fun h => by cases h; exact h1 ‹_›
      | .isTrue _, .isFalse h2 => .isFalse fun h => by cases h; exact h2 ‹_›

instance decForall₂Inst {α β : Type} {R : α → β → Prop}
    [∀ a b, Decidable (R a b)] (l₁ : List α) (l₂ : List β) :
    Decidable (List.Forall₂ R l₁ l₂) :=
  decForall₂ l₁ l₂

/-- Structural decision procedure for `List.Chain`. -/
def decChain {α : Type} {R : α → α → Prop} [d : DecidableRel R] (a : α) :
    (l : List α) → Decidable (List.Chain R a l)
  | [] => .isTrue List.Chain.nil
  | b :: l =>
      match d a b, decChain b l with
      | .isTrue h1, .isTrue h2 => .isTrue (List.Chain.cons h1 h2)
      | .isFalse h1, _ => .isFalse fun h => by cases h; exact h1 ‹_›
      | .isTrue _, .isFalse h2 => .isFalse fun h => by cases h; exact h2 ‹_›

instance decChainInst {α : Type} {R : α → α → Prop} [DecidableRel R]
    (a : α) (l : List α) : Decidable (List.Chain R a l) :=
  decChain a l

instance decChainInst' {α : Type} {R : α → α → Prop} [DecidableRel R] :
    (l : List α) → Decidable (List.Chain' R l)
  | [] => .isTrue trivial
  | a :: l => decChain a l

/-- Numeric rank of a status in the forward order
`queued → in_progress → completed`. -/
def Status.idx : Status → Nat
  | .queued => 0
  | .in_progress => 1
  | .completed => 2

/-- `a` precedes or equals `b` in the forward status order. -/
def statusLE (a b : Status) : Prop :=
  a.idx ≤ b.idx

instance statusLE.decRel : DecidableRel statusLE := fun a b =>
  inferInstanceAs (Decidable (a.idx ≤ b.idx))

/-- Pointwise forward-status order on database states: same rows, each row's
status at least as far along in the second state. -/
def dbStatusLE (d1 d2 : List WorkflowRun) : Prop :=
  List.Forall₂ (fun a b => statusLE a.status b.status) d1 d2

instance dbStatusLE.decRel : DecidableRel dbStatusLE := fun d1 d2 =>
  inferInstanceAs (Decidable (List.Forall₂ _ d1 d2))

/-- Transition of a single row that never overwrites an already-set `run_id`
with a different value. -/
def runIdKept (a b : WorkflowRun) : Prop :=
  ∀ v, a.run_id = some v → b.run_id = some v

instance runIdKept.decRel : DecidableRel runIdKept := fun a b =>
  match h : a.run_id with
  | none => .isTrue (fun v hv => by rw [h] at hv; cases hv)
  | some v =>
      if hb : b.run_id = some v then
        .isTrue (fun w hw => by rw [h] at hw; cases hw; exact hb)
      else
        .isFalse (fun hc => hb (hc v h))

/-- Pointwise `run_id`-preservation between database states. -/
def dbRunIdKept (d1 d2 : List WorkflowRun) : Prop :=
  List.Forall₂ runIdKept d1 d2

instance dbRunIdKept.decRel : DecidableRel dbRunIdKept := fun d1 d2 =>
  inferInstanceAs (Decidable (List.Forall₂ _ d1 d2))

/-- The spec's record invariant: `conclusion` is non-null if and only if
`status = 'completed'`, for every row of the database. -/
def conclusionInv (db : List WorkflowRun) : Prop :=
  ∀ r ∈ db, (r.conclusion ≠ none ↔ r.status = .completed)

instance conclusionInv.dec (db : List WorkflowRun) :
    Decidable (conclusionInv db) :=
  List.decidableBAll _ db

/-- Frame contract of one row under `updateWorkflowRunById`: descriptive
columns are untouched, unsupplied lifecycle fields are untouched, supplied
ones are written, and the `updated_at` audit column is refreshed. -/
def frameById (u : UpdateById) (now : Nat) (a b : WorkflowRun) : Prop :=
  b.id = a.id ∧ b.github_org = a.github_org ∧ b.github_repo = a.github_repo ∧
  b.workflow_name = a.workflow_name ∧ b.workflow_id = a.workflow_id ∧
  b.commit_sha = a.commit_sha ∧ b.commit_ref = a.commit_ref ∧
  b.triggered_at = a.triggered_at ∧
  (u.run_id = none → b.run_id = a.run_id) ∧
  (∀ w, u.run_id = some w → b.run_id = some w) ∧
  (u.status = none → b.status = a.status) ∧
  (∀ s, u.status = some s → b.status = s) ∧
  (u.conclusion = none → b.conclusion = a.conclusion) ∧
  (∀ c, u.conclusion = some c → b.conclusion = c) ∧
  (u.started_at = none → b.started_at = a.started_at) ∧
  (∀ t, u.started_at = some t → b.started_at = some t) ∧
  (u.completed_at = none → b.completed_at = a.completed_at) ∧
  (∀ t, u.completed_at = some t → b.completed_at = some t) ∧
  b.updated_at = now

/-- Frame contract of one row under `updateWorkflowRunByRunId`: like
`frameById`, and additionally `run_id` itself is never touched. -/
def frameByRunId (u : UpdateByRunId) (now : Nat) (a b : WorkflowRun) : Prop :=
  b.id = a.id ∧ b.github_org = a.github_org ∧ b.github_repo = a.github_repo ∧
  b.workflow_name = a.workflow_name ∧ b.workflow_id = a.workflow_id ∧
  b.commit_sha = a.commit_sha ∧ b.commit_ref = a.commit_ref ∧
  b.triggered_at = a.triggered_at ∧
  b.run_id = a.run_id ∧
  (u.status = none → b.status = a.status) ∧
  (∀ s, u.status = some s → b.status = s) ∧
  (u.conclusion = none → b.conclusion = a.conclusion) ∧
  (∀ c, u.conclusion = some c → b.conclusion = c) ∧
  (u.started_at = none → b.started_at = a.started_at) ∧
  (∀ t, u.started_at = some t → b.started_at = some t) ∧
  (u.completed_at = none → b.completed_at = a.completed_at) ∧
  (∀ t, u.completed_at = some t → b.completed_at = some t) ∧
  b.updated_at = now

/-- Concrete fixtures used to instantiate the general theorems and to
exhibit counterexamples. -/
def mp0 : MonitorParams :=
  { owner := "o", repo := "r", workflowName := "w", workflowId := 7 }

/-- A freshly dispatched row, as the dispatcher creates it. -/
def rec0 : WorkflowRun :=
  { id := 1, github_org := "o", github_repo := "r", workflow_name := "w",
    workflow_id := 7, run_id := none, commit_sha := "s", commit_ref := "m",
    status := .queued, conclusion := none, triggered_at := 0,
    started_at := none, completed_at := none, updated_at := 0 }

/-- Poll oracle that sees run 999 in progress, then a different most-recent
run 1000 still queued, then only transient fetch errors. -/
def fetchTwoRuns : Nat → Except Unit (List Run)
  | 0 => .ok [{ id := 999, status := .in_progress, conclusion := none,
                run_started_at := some 3 }]
  | 1 => .ok [{ id := 1000, status := .queued, conclusion := none,
                run_started_at := none }]
  | _ => .error ()

/-- Poll oracle that immediately sees run 999 already completed. -/
def fetchCompleted : Nat → Except Unit (List Run)
  | 0 => .ok [{ id := 999, status := .completed, conclusion := some .success,
                run_started_at := some 3 }]
  | _ => .error ()

/-- Poll oracle under which run 999 stays in progress forever. -/
def fetchForever : Nat → Except Unit (List Run) :=
  fun _ => .ok [{ id := 999, status := .in_progress, conclusion := none,
                  run_started_at := some 3 }]

/-- A completed run with a failure conclusion, for concrete instantiation. -/
def run999 : Run :=
  { id := 999, status := .completed, conclusion := some .failure,
    run_started_at := none }

/-- The tracked row already correlated with a different run 777. -/
def rec777 : WorkflowRun :=
  { rec0 with run_id := some 777 }

/-- Concrete dispatcher parameters (spec §8, Scenario A). -/
def p0 : DispatchParams :=
  { owner := "o", repo := "r", workflowId := 42, workflowName := "CI",
    workflowPath := ".github/workflows/ci.yml", ref := "main",
    inputs := [("version", "1.0.0")], commitSha := "s" }

theorem Status.idx_le_two (s : Status) : s.idx ≤ 2 := by
  cases s <;> simp [Status.idx]

theorem statusLE_refl (s : Status) : statusLE s s := Nat.le_refl _

theorem statusLE_queued (s : Status) : statusLE .queued s := Nat.zero_le _

theorem statusLE_completed (s : Status) : statusLE s .completed :=
  Status.idx_le_two s

theorem monitorStep_done (avail : Bool) (rid : Option Nat) (mp : MonitorParams)
    (fr : Except Unit (List Run)) (now : Nat) (db : List WorkflowRun) :
    (monitorStep avail rid mp fr now db).done = pollDone fr := by
  match fr with
  | .error _ => rfl
  | .ok [] => rfl
  | .ok (run :: rest) => rfl

theorem monitorStep_db_eq (avail : Bool) (rid : Option Nat) (mp : MonitorParams)
    (fr : Except Unit (List Run)) (now : Nat) (db : List WorkflowRun) :
    (monitorStep avail rid mp fr now db).db =
      (monitorStep avail rid mp fr now db).states.getLastD db := by
  match fr with
  | .error _ => rfl
  | .ok [] => rfl
  | .ok (run :: rest) => rfl

theorem firstIdx_lt (p : Nat → Bool) :
    ∀ n k, firstIdx p n = some k → k < n := by
  intro n
  induction n generalizing p with
  | zero => intro k h; cases h
  | succ m ih =>
      intro k h
      by_cases h0 : p 0 = true
      · simp [firstIdx, h0] at h
        omega
      · simp [firstIdx, h0] at h
        obtain ⟨j, hj, rfl⟩ := h
        have := ih (fun i => p (i + 1)) j hj
        omega

theorem firstIdx_isSome_iff (p : Nat → Bool) :
    ∀ n, (firstIdx p n).isSome = true ↔ ∃ k, k < n ∧ p k = true := by
  intro n
  induction n generalizing p with
  | zero =>
      simp [firstIdx]
  | succ m ih =>
      cases h0 : p 0 with
      | true =>
          simp only [firstIdx, h0, if_true, Option.isSome_some, true_iff]
          exact ⟨0, Nat.succ_pos m, h0⟩
      | false =>
          have hcond : ¬ (p 0 = true) := by simp [h0]
          rw [firstIdx, if_neg hcond]
          have hmap : (Option.map (fun x => x + 1)
              (firstIdx (fun k => p (k + 1)) m)).isSome =
              (firstIdx (fun k => p (k + 1)) m).isSome := by
            cases firstIdx (fun k => p (k + 1)) m <;> rfl
          rw [hmap, ih (fun i => p (i + 1))]
          constructor
          · rintro ⟨k, hk, hp⟩
            exact ⟨k + 1, Nat.succ_lt_succ hk, hp⟩
          · rintro ⟨k, hk, hp⟩
            match k with
            | 0 => exact absurd hp hcond
            | j + 1 => exact ⟨j, Nat.lt_of_succ_lt_succ hk, hp⟩

theorem monitorLoop_done_attempts (avail : Bool) (rid : Option Nat)
    (mp : MonitorParams) :
    ∀ (fuel : Nat) (fetch : Nat → Except Unit (List Run)) (clock : Nat → Nat)
      (db : List WorkflowRun),
    (monitorLoop avail rid mp fetch clock fuel db).done =
      (firstIdx (fun k => pollDone (fetch k)) fuel).isSome ∧
    (monitorLoop avail rid mp fetch clock fuel db).attempts =
      (match firstIdx (fun k => pollDone (fetch k)) fuel with
       | some k => k + 1
       | none => fuel) := by
  intro fuel
  induction fuel with
  | zero => intro fetch clock db; exact ⟨rfl, rfl⟩
  | succ m ih =>
      intro fetch clock db
      have hd := monitorStep_done avail rid mp (fetch 0) (clock 0) db
      cases h0 : pollDone (fetch 0) with
      | true =>
          have hd' : (monitorStep avail rid mp (fetch 0) (clock 0) db).done = true := by
            rw [hd, h0]
          rw [monitorLoop]
          rw [if_pos hd']
          rw [firstIdx, if_pos h0]
          exact ⟨rfl, rfl⟩
      | false =>
          have hd' : ¬ ((monitorStep avail rid mp (fetch 0) (clock 0) db).done = true) := by
            rw [hd, h0]; exact Bool.false_ne_true
          have hcond : ¬ (pollDone (fetch 0) = true) := by simp [h0]
          rw [monitorLoop]
          rw [if_neg hd']
          rw [firstIdx, if_neg hcond]
          obtain ⟨ihd, iha⟩ := ih (fun k => fetch (k + 1)) (fun k => clock (k + 1))
            (monitorStep avail rid mp (fetch 0) (clock 0) db).db
          refine ⟨?_, ?_⟩
          · show (monitorLoop avail rid mp (fun k => fetch (k + 1))
              (fun k => clock (k + 1)) m
              (monitorStep avail rid mp (fetch 0) (clock 0) db).db).done = _
            rw [ihd]
            cases firstIdx (fun k => pollDone (fetch (k + 1))) m <;> rfl
          · show (monitorLoop avail rid mp (fun k => fetch (k + 1))
              (fun k => clock (k + 1)) m
              (monitorStep avail rid mp (fetch 0) (clock 0) db).db).attempts + 1 = _
            rw [iha]
            cases hfi : firstIdx (fun k => pollDone (fetch (k + 1))) m <;> simp [hfi]

/-- C6 helper: a transient fetch error never counts as a terminal poll. -/
theorem pollDone_error : pollDone (.error ()) = false := rfl

/-- C6: `monitorWorkflowRun` always returns normally (it is a total
function of its oracles) and never raises.  It reports a terminal
observation (`done = true`) exactly when some attempt among the budget of
60 fetched a most recent run with status `completed` — the conclusion value
is not consulted by `pollDone`.  It stops at the first such attempt
(consuming `k + 1` attempts) and otherwise exhausts exactly the 60-attempt
budget; a transient fetch error (`fetch k = .error ()`) is never terminal,
so it is waited out and consumes one attempt like any other poll. -/
theorem monitor_always_returns (avail : Bool) (rid : Option Nat)
    (mp : MonitorParams) (fetch : Nat → Except Unit (List Run))
    (clock : Nat → Nat) (db : List WorkflowRun) :
    ((monitorWorkflowRun avail rid mp fetch clock db).done = true ↔
      ∃ k, k < 60 ∧ pollDone (fetch k) = true) ∧
    (monitorWorkflowRun avail rid mp fetch clock db).attempts =
      (match firstIdx (fun k => pollDone (fetch k)) 60 with
       | some k => k + 1
       | none => 60) ∧
    (monitorWorkflowRun avail rid mp fetch clock db).attempts ≤ 60 ∧
    (∀ k, fetch k = .error () → pollDone (fetch k) = false) := by
  obtain ⟨hdone, hatt⟩ := monitorLoop_done_attempts avail rid mp 60 fetch clock db
  refine ⟨?_, hatt, ?_, ?_⟩
  · rw [monitorWorkflowRun, hdone]
    exact firstIdx_isSome_iff (fun k => pollDone (fetch k)) 60
  · rw [monitorWorkflowRun, hatt]
    cases hfi : firstIdx (fun k => pollDone (fetch k)) 60 with
    | none => exact Nat.le_refl 60
    | some k =>
        have := firstIdx_lt (fun k => pollDone (fetch k)) 60 k hfi
        show k + 1 ≤ 60
        omega
  · intro k hk
    rw [hk]
    rfl

/-- C9: the two partial-update operations touch only the supplied fields
plus the always-refreshed `updated_at` audit column; every row not matched
by the key is returned unchanged, every matched row satisfies the frame
contract; and a call with no supplied fields issues no write and returns
`false`. -/
theorem update_partial_frame (db : List WorkflowRun) (i runId now : Nat)
    (u : UpdateById) (v : UpdateByRunId) :
    (u.hasFields = false → updateWorkflowRunById db i u now = (db, false)) ∧
    (v.hasFields = false → updateWorkflowRunByRunId db runId v now = (db, false)) ∧
    List.Forall₂
      (fun a b => (a.id ≠ i → b = a) ∧
        (a.id = i → u.hasFields = true → frameById u now a b))
      db (updateWorkflowRunById db i u now).1 ∧
    List.Forall₂
      (fun a b => (a.run_id ≠ some runId → b = a) ∧
        (a.run_id = some runId → v.hasFields = true → frameByRunId v now a b))
      db (updateWorkflowRunByRunId db runId v now).1 := by
  refine ⟨?_, ?_, ?_, ?_⟩
  · intro h
    rw [updateWorkflowRunById, h]
    rfl
  · intro h
    rw [updateWorkflowRunByRunId, h]
    rfl
  · cases hu : u.hasFields with
    | false =>
        rw [updateWorkflowRunById, hu]
        simp only [Bool.false_eq_true, if_false]
        rw [List.forall₂_same]
        intro a _
        exact ⟨fun _ => rfl, fun _ hc => absurd hc (by simp)⟩
    | true =>
        rw [updateWorkflowRunById, hu]
        simp only [if_true]
        rw [List.forall₂_map_right_iff, List.forall₂_same]
        intro a _
        constructor
        · intro hne
          rw [if_neg hne]
        · intro heq _
          rw [if_pos heq]
          refine ⟨rfl, rfl, rfl, rfl, rfl, rfl, rfl, rfl, ?_, ?_, ?_, ?_, ?_,
            ?_, ?_, ?_, ?_, ?_, rfl⟩
          · intro h; simp [applyById, h]
          · intro w h; simp [applyById, h]
          · intro h; simp [applyById, h]
          · intro s h; simp [applyById, h]
          · intro h; simp [applyById, h]
          · intro c h; simp [applyById, h]
          · intro h; simp [applyById, h]
          · intro t h; simp [applyById, h]
          · intro h; simp [applyById, h]
          · intro t h; simp [applyById, h]
  · cases hv : v.hasFields with
    | false =>
        rw [updateWorkflowRunByRunId, hv]
        simp only [Bool.false_eq_true, if_false]
        rw [List.forall₂_same]
        intro a _
        exact ⟨fun _ => rfl, fun _ hc => absurd hc (by simp)⟩
    | true =>
        rw [updateWorkflowRunByRunId, hv]
        simp only [if_true]
        rw [List.forall₂_map_right_iff, List.forall₂_same]
        intro a _
        constructor
        · intro hne
          rw [if_neg hne]
        · intro heq _
          rw [if_pos heq]
          refine ⟨rfl, rfl, rfl, rfl, rfl, rfl, rfl, rfl, rfl, ?_, ?_, ?_, ?_,
            ?_, ?_, ?_, ?_, rfl⟩
          · intro h; simp [applyByRunId, h]
          · intro s h; simp [applyByRunId, h]
          · intro h; simp [applyByRunId, h]
          · intro c h; simp [applyByRunId, h]
          · intro h; simp [applyByRunId, h]
          · intro t h; simp [applyByRunId, h]
          · intro h; simp [applyByRunId, h]
          · intro t h; simp [applyByRunId, h]

/-- C4: with persistence available, `dispatchWorkflow` attempts exactly one
insert, of a record with `status = queued`, `triggered_at = now` and no
`run_id`, and the insert precedes the dispatch endpoint call in the event
trace — independently of whether the dispatch endpoint then succeeds.  If
the insert itself fails, nothing is added to the database, the dispatch
endpoint is still called, and on endpoint success the call returns a null
record id. -/
theorem dispatch_one_queued_insert (insertOutcome : Except Unit Nat)
    (dispatchOk : Bool) (now : Nat) (p : DispatchParams)
    (db : List WorkflowRun) :
    (p.newRun now).status = .queued ∧
    (p.newRun now).triggered_at = now ∧
    (p.newRun now).run_id = none ∧
    (∀ newId, insertOutcome = .ok newId →
      (dispatchWorkflow true insertOutcome dispatchOk now p db).events =
        [Event.dbInsert (p.newRun now),
         Event.apiDispatch p.owner p.repo p.workflowId p.ref p.inputs] ∧
      (dispatchWorkflow true insertOutcome dispatchOk now p db).db =
        db ++ [(p.newRun now).toRow newId]) ∧
    (∀ newId, insertOutcome = .ok newId → dispatchOk = true →
      (dispatchWorkflow true insertOutcome dispatchOk now p db).result =
        .ok (some newId)) ∧
    (insertOutcome = .error () →
      (dispatchWorkflow true insertOutcome dispatchOk now p db).events =
        [Event.dbInsert (p.newRun now),
         Event.apiDispatch p.owner p.repo p.workflowId p.ref p.inputs] ∧
      (dispatchWorkflow true insertOutcome dispatchOk now p db).db = db ∧
      (dispatchOk = true →
        (dispatchWorkflow true insertOutcome dispatchOk now p db).result =
          .ok none)) := by
  refine ⟨rfl, rfl, rfl, ?_, ?_, ?_⟩
  · intro newId h
    subst h
    cases dispatchOk <;> exact ⟨rfl, rfl⟩
  · intro newId h hok
    subst h
    subst hok
    rfl
  · intro h
    subst h
    cases dispatchOk with
    | true => exact ⟨rfl, rfl, fun _ => rfl⟩
    | false => exact ⟨rfl, rfl, fun h2 => absurd h2 (by decide)⟩

/-- C5: when the dispatch endpoint rejects the call, `dispatchWorkflow`
rethrows the error to its caller, performs no update call whatsoever, and —
when a record had been inserted — leaves the database exactly as the insert
left it: the new row still has `status = queued` and is the only change. -/
theorem dispatch_failure_keeps_queued_record (avail : Bool)
    (insertOutcome : Except Unit Nat) (now : Nat) (p : DispatchParams)
    (db : List WorkflowRun) :
    (dispatchWorkflow avail insertOutcome false now p db).result = .error () ∧
    (∀ j u, Event.dbUpdateById j u ∉
      (dispatchWorkflow avail insertOutcome false now p db).events) ∧
    (∀ newId, insertOutcome = .ok newId → avail = true →
      (dispatchWorkflow avail insertOutcome false now p db).db =
        db ++ [(p.newRun now).toRow newId] ∧
      ((p.newRun now).toRow newId).status = .queued) ∧
    (avail = false →
      (dispatchWorkflow avail insertOutcome false now p db).db = db) ∧
    (insertOutcome = .error () →
      (dispatchWorkflow avail insertOutcome false now p db).db = db) := by
  refine ⟨?_, ?_, ?_, ?_, ?_⟩
  · cases avail <;> cases insertOutcome <;> rfl
  · intro j u hmem
    cases avail <;> cases insertOutcome <;>
      simp [dispatchWorkflow] at hmem
  · rintro newId rfl rfl
    exact ⟨rfl, rfl⟩
  · rintro rfl
    cases insertOutcome <;> rfl
  · rintro rfl
    cases avail <;> rfl

/-- C7: the orchestrator raises exactly when the dispatcher raises (i.e.,
exactly when the dispatch endpoint rejected); when dispatch succeeds it
starts the monitor with the record id the dispatcher returned; when
dispatch fails no monitor is started; and the orchestrator's own result is
independent of everything the background monitor observes — the modelled
`.catch` guarantees no monitoring error ever reaches the caller. -/
theorem orchestrator_raises_iff_dispatch_raises (avail : Bool)
    (insertOutcome : Except Unit Nat) (dispatchOk : Bool) (now : Nat)
    (p : DispatchParams) (fetch : Nat → Except Unit (List Run))
    (clock : Nat → Nat) (db : List WorkflowRun) :
    ((dispatchAndMonitorWorkflow avail insertOutcome dispatchOk now p fetch
        clock db).result = .error () ↔
      (dispatchWorkflow avail insertOutcome dispatchOk now p db).result =
        .error ()) ∧
    ((dispatchWorkflow avail insertOutcome dispatchOk now p db).result =
        .error () ↔ dispatchOk = false) ∧
    (∀ rid, (dispatchWorkflow avail insertOutcome dispatchOk now p db).result =
        .ok rid →
      (dispatchAndMonitorWorkflow avail insertOutcome dispatchOk now p fetch
        clock db).monitorStarted = some rid) ∧
    ((dispatchWorkflow avail insertOutcome dispatchOk now p db).result =
        .error () →
      (dispatchAndMonitorWorkflow avail insertOutcome dispatchOk now p fetch
        clock db).monitorStarted = none) ∧
    (∀ fetch2 clock2,
      (dispatchAndMonitorWorkflow avail insertOutcome dispatchOk now p fetch2
        clock2 db).result =
      (dispatchAndMonitorWorkflow avail insertOutcome dispatchOk now p fetch
        clock db).result) := by
  cases dispatchOk <;> cases avail <;> cases insertOutcome <;>
    simp [dispatchAndMonitorWorkflow, dispatchWorkflow]

theorem applyCalls_append_single (now : Nat) (c : Nat × UpdateById) :
    ∀ (cs : List (Nat × UpdateById)) (db : List WorkflowRun),
    (applyCalls now db (cs ++ [c])).getLastD db =
      (updateWorkflowRunById ((applyCalls now db cs).getLastD db) c.1 c.2
        now).1 := by
  intro cs
  induction cs with
  | nil => intro db; rfl
  | cons d ds ih =>
      intro db
      simp only [List.cons_append, applyCalls, List.getLastD_cons]
      exact ih _

/-- C10: when the fetched most recent run is `completed`, persistence is
available and a record id is being tracked, the monitor's completion update
finalizes every row with that id — writing `status = completed`, the
observed conclusion, and `completed_at = now` — for every possible database
state, in particular without comparing the row's stored `run_id` against
the completed run's id. -/
theorem completion_finalizes_unconditionally (rid : Nat) (mp : MonitorParams)
    (run : Run) (rest : List Run) (now : Nat) (db : List WorkflowRun)
    (h : run.status = .completed) :
    ∀ rec ∈ (monitorStep true (some rid) mp (.ok (run :: rest)) now db).db,
      rec.id = rid →
        rec.status = .completed ∧ rec.conclusion = run.conclusion ∧
        rec.completed_at = some now := by
  intro rec hrec hid
  have hcalls : monitorStepCalls true (some rid) run now db =
      (if (getWorkflowRunByRunId db run.id).isNone then
        [(rid, correlationUpdate run)] else []) ++
      [(rid, completionUpdate run now)] := by
    simp [monitorStepCalls, h]
  have hdb : (monitorStep true (some rid) mp (.ok (run :: rest)) now db).db =
      (updateWorkflowRunById
        ((applyCalls now db
          (if (getWorkflowRunByRunId db run.id).isNone then
            [(rid, correlationUpdate run)] else [])).getLastD db)
        rid (completionUpdate run now) now).1 := by
    show (applyCalls now db (monitorStepCalls true (some rid) run now
      db)).getLastD db = _
    rw [hcalls, applyCalls_append_single]
  rw [hdb] at hrec
  have hHF : (completionUpdate run now).hasFields = true := rfl
  rw [updateWorkflowRunById, if_pos hHF] at hrec
  rcases List.mem_map.1 hrec with ⟨a, ha, rfl⟩
  by_cases haid : a.id = rid
  · rw [if_pos haid]
    exact ⟨rfl, rfl, rfl⟩
  · rw [if_neg haid] at hid ⊢
    exact absurd hid haid

theorem monitorStep_apiEvents (avail : Bool) (rid : Option Nat)
    (mp : MonitorParams) (fr : Except Unit (List Run)) (now : Nat)
    (db : List WorkflowRun) :
    apiEvents (monitorStep avail rid mp fr now db).events =
      [Event.apiListRuns mp.owner mp.repo mp.workflowId 5] := by
  match fr with
  | .error _ => rfl
  | .ok [] => rfl
  | .ok (run :: rest) =>
      show apiEvents (_ ++ _ ++ _) = _
      rw [apiEvents, List.filter_append, List.filter_append]
      have h1 : List.filter Event.isApi
          (if avail && rid.isSome then [Event.dbGetByRunId run.id] else []) =
          [] := by
        cases havail : avail && rid.isSome <;> simp [Event.isApi]
      have h2 : List.filter Event.isApi
          ((monitorStepCalls avail rid run now db).map fun c =>
            Event.dbUpdateById c.1 c.2) = [] := by
        rw [List.filter_eq_nil_iff]
        intro e he
        rcases List.mem_map.1 he with ⟨c, _, rfl⟩
        simp [Event.isApi]
      rw [h1, h2]
      rfl

theorem monitorStep_unavailable (rid : Option Nat) (mp : MonitorParams)
    (fr : Except Unit (List Run)) (now : Nat) (db : List WorkflowRun) :
    (monitorStep false rid mp fr now db).db = db ∧
    (monitorStep false rid mp fr now db).states = [] ∧
    (∀ e ∈ (monitorStep false rid mp fr now db).events, e.isApi = true) := by
  match fr with
  | .error _ =>
      refine ⟨rfl, rfl, ?_⟩
      intro e he
      simp [monitorStep] at he
      rw [he]
      rfl
  | .ok [] =>
      refine ⟨rfl, rfl, ?_⟩
      intro e he
      simp [monitorStep] at he
      rw [he]
      rfl
  | .ok (run :: rest) =>
      have hcalls : monitorStepCalls false rid run now db = [] := by
        show ([] ++ (if run.status = Status.completed then [] else [])) = []
        rw [List.nil_append, ite_self]
      refine ⟨?_, ?_, ?_⟩
      · show (applyCalls now db (monitorStepCalls false rid run now
          db)).getLastD db = db
        rw [hcalls]
        rfl
      · show applyCalls now db (monitorStepCalls false rid run now db) = []
        rw [hcalls]
        rfl
      · intro e he
        simp only [monitorStep, hcalls, Bool.false_and, if_false,
          List.map_nil, List.append_nil] at he
        simp at he
        rw [he]
        rfl

theorem monitorLoop_apiEvents_avail_independent (rid : Option Nat)
    (mp : MonitorParams) :
    ∀ (fuel : Nat) (fetch : Nat → Except Unit (List Run)) (clock : Nat → Nat)
      (db1 db2 : List WorkflowRun),
    apiEvents (monitorLoop true rid mp fetch clock fuel db1).events =
      apiEvents (monitorLoop false rid mp fetch clock fuel db2).events := by
  intro fuel
  induction fuel with
  | zero => intro fetch clock db1 db2; rfl
  | succ m ih =>
      intro fetch clock db1 db2
      have hdT := monitorStep_done true rid mp (fetch 0) (clock 0) db1
      have hdF := monitorStep_done false rid mp (fetch 0) (clock 0) db2
      cases h0 : pollDone (fetch 0) with
      | true =>
          have hT : (monitorStep true rid mp (fetch 0) (clock 0) db1).done =
            true := by rw [hdT, h0]
          have hF : (monitorStep false rid mp (fetch 0) (clock 0) db2).done =
            true := by rw [hdF, h0]
          rw [monitorLoop, if_pos hT, monitorLoop, if_pos hF]
          rw [monitorStep_apiEvents, monitorStep_apiEvents]
      | false =>
          have hT : ¬ ((monitorStep true rid mp (fetch 0) (clock 0) db1).done
            = true) := by rw [hdT, h0]; exact Bool.false_ne_true
          have hF : ¬ ((monitorStep false rid mp (fetch 0) (clock 0) db2).done
            = true) := by rw [hdF, h0]; exact Bool.false_ne_true
          rw [monitorLoop, if_neg hT, monitorLoop, if_neg hF]
          show apiEvents (_ ++ _) = apiEvents (_ ++ _)
          simp only [apiEvents, List.filter_append]
          have heads := monitorStep_apiEvents true rid mp (fetch 0) (clock 0)
            db1
          have headsF := monitorStep_apiEvents false rid mp (fetch 0) (clock 0)
            db2
          rw [apiEvents] at heads headsF
          rw [heads, headsF]
          have htails := ih (fun k => fetch (k + 1)) (fun k => clock (k + 1))
            (monitorStep true rid mp (fetch 0) (clock 0) db1).db
            (monitorStep false rid mp (fetch 0) (clock 0) db2).db
          rw [apiEvents, apiEvents] at htails
          rw [htails]

theorem monitorLoop_unavailable (rid : Option Nat) (mp : MonitorParams) :
    ∀ (fuel : Nat) (fetch : Nat → Except Unit (List Run)) (clock : Nat → Nat)
      (db : List WorkflowRun),
    (monitorLoop false rid mp fetch clock fuel db).db = db ∧
    (monitorLoop false rid mp fetch clock fuel db).states = [] ∧
    (∀ e ∈ (monitorLoop false rid mp fetch clock fuel db).events,
      e.isApi = true) := by
  intro fuel
  induction fuel with
  | zero =>
      intro fetch clock db
      exact ⟨rfl, rfl, fun e he => absurd he (List.not_mem_nil e)⟩
  | succ m ih =>
      intro fetch clock db
      obtain ⟨hsdb, hsst, hsev⟩ :=
        monitorStep_unavailable rid mp (fetch 0) (clock 0) db
      cases hdone : (monitorStep false rid mp (fetch 0) (clock 0) db).done with
      | true =>
          rw [monitorLoop, if_pos hdone]
          exact ⟨hsdb, hsst, hsev⟩
      | false =>
          have hne : ¬ ((monitorStep false rid mp (fetch 0) (clock 0) db).done
            = true) := by rw [hdone]; exact Bool.false_ne_true
          rw [monitorLoop, if_neg hne]
          obtain ⟨ihdb, ihst, ihev⟩ := ih (fun k => fetch (k + 1))
            (fun k => clock (k + 1))
            (monitorStep false rid mp (fetch 0) (clock 0) db).db
          refine ⟨?_, ?_, ?_⟩
          · show (monitorLoop false rid mp _ _ m _).db = db
            rw [ihdb, hsdb]
          · show (monitorStep false rid mp (fetch 0) (clock 0) db).states ++
              (monitorLoop false rid mp _ _ m _).states = []
            rw [ihst, hsst]
            rfl
          · intro e he
            rcases List.mem_append.1 he with h | h
            · exact hsev e h
            · exact ihev e h

/-- C8 (amended): two executions of `dispatchWorkflow` or of
`monitorWorkflowRun` that differ only in persistence availability issue the
same sequence of Workflow Control API calls, and raise an error in exactly
the same cases (only a dispatch-endpoint rejection ever raises); the
unavailable execution attempts no persistence operation, leaves the
database untouched, and throws no persistence error.  For the monitor the
observable outcome (`done`, attempt count) is also identical.  Only the
dispatcher's returned record id differs: it is null when persistence is
unavailable. -/
theorem availability_transparent_for_api (insertOutcome : Except Unit Nat)
    (dispatchOk : Bool) (now : Nat) (p : DispatchParams)
    (db : List WorkflowRun) (rid : Option Nat) (mp : MonitorParams)
    (fetch : Nat → Except Unit (List Run)) (clock : Nat → Nat) :
    apiEvents (dispatchWorkflow true insertOutcome dispatchOk now p db).events
      = apiEvents
        (dispatchWorkflow false insertOutcome dispatchOk now p db).events ∧
    ((dispatchWorkflow true insertOutcome dispatchOk now p db).result =
        .error () ↔
      (dispatchWorkflow false insertOutcome dispatchOk now p db).result =
        .error ()) ∧
    ((dispatchWorkflow false insertOutcome dispatchOk now p db).result =
        .error () ↔ dispatchOk = false) ∧
    (∀ e ∈ (dispatchWorkflow false insertOutcome dispatchOk now p db).events,
      e.isApi = true) ∧
    (dispatchWorkflow false insertOutcome dispatchOk now p db).db = db ∧
    apiEvents (monitorWorkflowRun true rid mp fetch clock db).events =
      apiEvents (monitorWorkflowRun false rid mp fetch clock db).events ∧
    (monitorWorkflowRun true rid mp fetch clock db).done =
      (monitorWorkflowRun false rid mp fetch clock db).done ∧
    (monitorWorkflowRun true rid mp fetch clock db).attempts =
      (monitorWorkflowRun false rid mp fetch clock db).attempts ∧
    (∀ e ∈ (monitorWorkflowRun false rid mp fetch clock db).events,
      e.isApi = true) ∧
    (monitorWorkflowRun false rid mp fetch clock db).db = db ∧
    (monitorWorkflowRun false rid mp fetch clock db).states = [] := by
  obtain ⟨hmdb, hmst, hmev⟩ := monitorLoop_unavailable rid mp 60 fetch clock db
  obtain ⟨hdT, haT⟩ := monitorLoop_done_attempts true rid mp 60 fetch clock db
  obtain ⟨hdF, haF⟩ := monitorLoop_done_attempts false rid mp 60 fetch clock db
  refine ⟨?_, ?_, ?_, ?_, ?_, ?_, ?_, ?_, hmev, hmdb, hmst⟩
  · cases insertOutcome <;> cases dispatchOk <;> rfl
  · cases insertOutcome <;> cases dispatchOk <;> simp [dispatchWorkflow]
  · cases insertOutcome <;> cases dispatchOk <;> simp [dispatchWorkflow]
  · intro e he
    cases insertOutcome <;> cases dispatchOk <;> simp [dispatchWorkflow] at he
      <;> rw [he] <;> rfl
  · cases insertOutcome <;> cases dispatchOk <;> rfl
  · exact monitorLoop_apiEvents_avail_independent rid mp 60 fetch clock db db
  · rw [monitorWorkflowRun, monitorWorkflowRun, hdT, hdF]
  · rw [monitorWorkflowRun, monitorWorkflowRun, haT, haF]

theorem getByRunId_isNone_iff (db : List WorkflowRun) (x : Nat) :
    (getWorkflowRunByRunId db x).isNone = true ↔
      ∀ rec ∈ db, rec.run_id ≠ some x := by
  rw [getWorkflowRunByRunId, Option.isNone_iff_eq_none, List.find?_eq_none]
  constructor
  · intro h rec hr
    simpa using h rec hr
  · intro h rec hr
    simpa using h rec hr

theorem getByRunId_isNone_false (db : List WorkflowRun) (x : Nat)
    (h : (getWorkflowRunByRunId db x).isNone = false) :
    ∃ rec ∈ db, rec.run_id = some x := by
  rcases ho : getWorkflowRunByRunId db x with _ | rec
  · rw [ho] at h
    cases h
  · have hm := List.mem_of_find?_eq_some ho
    have hp := List.find?_some ho
    exact ⟨rec, hm, by simpa using hp⟩

theorem applyById_id (u : UpdateById) (now : Nat) (a : WorkflowRun) :
    (applyById u now a).id = a.id := rfl

theorem applyById_run_id_of_none (u : UpdateById) (now : Nat) (a : WorkflowRun)
    (h : u.run_id = none) : (applyById u now a).run_id = a.run_id := by
  simp [applyById, h]

theorem applyById_run_id_of_some (u : UpdateById) (now : Nat) (a : WorkflowRun)
    (w : Nat) (h : u.run_id = some w) : (applyById u now a).run_id = some w := by
  simp [applyById, h]

theorem runIdKept_refl (a : WorkflowRun) : runIdKept a a := fun _ hv => hv

theorem runIdKept_of_run_id_eq {a b : WorkflowRun} (h : b.run_id = a.run_id) :
    runIdKept a b := fun v hv => by rw [h, hv]

theorem update_fst_eq_map (db : List WorkflowRun) (n : Nat) (u : UpdateById)
    (now : Nat) (hf : u.hasFields = true) :
    (updateWorkflowRunById db n u now).1 =
      db.map fun rec => if rec.id = n then applyById u now rec else rec := by
  rw [updateWorkflowRunById, if_pos hf]

theorem forall₂_update_of (R : WorkflowRun → WorkflowRun → Prop)
    (hrefl : ∀ a, R a a) (db : List WorkflowRun) (n : Nat) (u : UpdateById)
    (now : Nat)
    (h : ∀ rec ∈ db, rec.id = n → R rec (applyById u now rec)) :
    List.Forall₂ R db (updateWorkflowRunById db n u now).1 := by
  rw [updateWorkflowRunById]
  by_cases hf : u.hasFields = true
  · rw [if_pos hf]
    show List.Forall₂ R db (db.map _)
    rw [List.forall₂_map_right_iff, List.forall₂_same]
    intro a ha
    by_cases haid : a.id = n
    · rw [if_pos haid]
      exact h a ha haid
    · rw [if_neg haid]
      exact hrefl a
  · rw [if_neg hf]
    exact List.forall₂_same.2 fun a _ => hrefl a

theorem mem_update_cases (db : List WorkflowRun) (n : Nat) (u : UpdateById)
    (now : Nat) (rec : WorkflowRun) (hf : u.hasFields = true)
    (hmem : rec ∈ (updateWorkflowRunById db n u now).1) :
    (∃ a ∈ db, a.id = n ∧ rec = applyById u now a) ∨
    (rec ∈ db ∧ rec.id ≠ n) := by
  rw [update_fst_eq_map db n u now hf] at hmem
  rcases List.mem_map.1 hmem with ⟨a, ha, rfl⟩
  by_cases haid : a.id = n
  · rw [if_pos haid]
    exact Or.inl ⟨a, ha, haid, rfl⟩
  · rw [if_neg haid]
    exact Or.inr ⟨ha, haid⟩

theorem chain'_glue {α : Type} {R : α → α → Prop} :
    ∀ (xs : List α) (a : α) (ys : List α),
    List.Chain' R (a :: xs) → List.Chain' R (xs.getLastD a :: ys) →
    List.Chain' R (a :: (xs ++ ys)) := by
  intro xs
  induction xs with
  | nil =>
      intro a ys _ h2
      exact h2
  | cons x xs' ih =>
      intro a ys h1 h2
      rw [List.getLastD_cons] at h2
      rcases List.chain'_cons.1 h1 with ⟨hax, h1'⟩
      show List.Chain' R (a :: x :: (xs' ++ ys))
      exact List.chain'_cons.2 ⟨hax, ih x ys h1' h2⟩

theorem correlationUpdate_hasFields (run : Run) :
    (correlationUpdate run).hasFields = true := rfl

theorem completionUpdate_hasFields (run : Run) (now : Nat) :
    (completionUpdate run now).hasFields = true := rfl

theorem monitorStep_status_chain (n r : Nat) (mp : MonitorParams)
    (fr : Except Unit (List Run)) (now : Nat) (db : List WorkflowRun)
    (hr : ∀ run rest, fr = .ok (run :: rest) → run.id = r)
    (hJ : (∀ rec ∈ db, rec.run_id ≠ some r) →
      ∀ rec ∈ db, rec.id = n → rec.status = .queued) :
    List.Chain' dbStatusLE
      (db :: (monitorStep true (some n) mp fr now db).states) ∧
    ((∀ rec ∈ (monitorStep true (some n) mp fr now db).db,
        rec.run_id ≠ some r) →
      ∀ rec ∈ (monitorStep true (some n) mp fr now db).db,
        rec.id = n → rec.status = .queued) := by
  match fr with
  | .error _ => exact ⟨List.chain'_singleton _, hJ⟩
  | .ok [] => exact ⟨List.chain'_singleton _, hJ⟩
  | .ok (run :: rest) =>
      have hrid : run.id = r := hr run rest rfl
      cases hget : (getWorkflowRunByRunId db run.id).isNone with
      | true =>
          have hguard : ∀ rec ∈ db, rec.run_id ≠ some r := by
            intro rec hrec
            have hni := (getByRunId_isNone_iff db run.id).1 hget rec hrec
            rw [hrid] at hni
            exact hni
          have hq := hJ hguard
          by_cases hcomp : run.status = Status.completed
          · have hcalls : monitorStepCalls true (some n) run now db =
                [(n, correlationUpdate run), (n, completionUpdate run now)] := by
              show (if (getWorkflowRunByRunId db run.id).isNone = true then
                  [(n, correlationUpdate run)] else []) ++
                (if run.status = Status.completed then
                  [(n, completionUpdate run now)] else []) = _
              rw [if_pos hget, if_pos hcomp]
              rfl
            have hstates :
                (monitorStep true (some n) mp (.ok (run :: rest)) now
                  db).states =
                [(updateWorkflowRunById db n (correlationUpdate run) now).1,
                 (updateWorkflowRunById
                   (updateWorkflowRunById db n (correlationUpdate run) now).1
                   n (completionUpdate run now) now).1] := by
              show applyCalls now db (monitorStepCalls true (some n) run now db)
                = _
              rw [hcalls]
              rfl
            have hdb : (monitorStep true (some n) mp (.ok (run :: rest)) now
                db).db =
                (updateWorkflowRunById
                  (updateWorkflowRunById db n (correlationUpdate run) now).1
                  n (completionUpdate run now) now).1 := by
              rw [monitorStep_db_eq, hstates]
              rfl
            constructor
            · rw [hstates]
              refine List.chain'_cons.2 ⟨?_, List.chain'_cons.2
                ⟨?_, List.chain'_singleton _⟩⟩
              · exact forall₂_update_of _ (fun a => statusLE_refl _) db n _ now
                  (fun a ha haid => by
                    show statusLE a.status run.status
                    rw [hq a ha haid]
                    exact statusLE_queued _)
              · exact forall₂_update_of _ (fun a => statusLE_refl _) _ n _ now
                  (fun a _ _ => statusLE_completed _)
            · rw [hdb]
              intro hA rec hrec hid
              rcases mem_update_cases _ n _ now rec
                (completionUpdate_hasFields run now) hrec with
                ⟨a, ha1, haid, rfl⟩ | ⟨_, hne⟩
              · rcases mem_update_cases db n _ now a
                  (correlationUpdate_hasFields run) ha1 with
                  ⟨b, _, _, rfl⟩ | ⟨_, hbne⟩
                · exfalso
                  apply hA _ hrec
                  rw [applyById_run_id_of_none _ now _ rfl,
                    applyById_run_id_of_some _ now _ run.id rfl, hrid]
                · exact absurd haid hbne
              · exact absurd hid hne
          · have hcalls : monitorStepCalls true (some n) run now db =
                [(n, correlationUpdate run)] := by
              show (if (getWorkflowRunByRunId db run.id).isNone = true then
                  [(n, correlationUpdate run)] else []) ++
                (if run.status = Status.completed then
                  [(n, completionUpdate run now)] else []) = _
              rw [if_pos hget, if_neg hcomp]
              rfl
            have hstates :
                (monitorStep true (some n) mp (.ok (run :: rest)) now
                  db).states =
                [(updateWorkflowRunById db n (correlationUpdate run) now).1] := by
              show applyCalls now db (monitorStepCalls true (some n) run now db)
                = _
              rw [hcalls]
              rfl
            have hdb : (monitorStep true (some n) mp (.ok (run :: rest)) now
                db).db =
                (updateWorkflowRunById db n (correlationUpdate run) now).1 := by
              rw [monitorStep_db_eq, hstates]
              rfl
            constructor
            · rw [hstates]
              refine List.chain'_cons.2 ⟨?_, List.chain'_singleton _⟩
              exact forall₂_update_of _ (fun a => statusLE_refl _) db n _ now
                (fun a ha haid => by
                  show statusLE a.status run.status
                  rw [hq a ha haid]
                  exact statusLE_queued _)
            · rw [hdb]
              intro hA rec hrec hid
              rcases mem_update_cases db n _ now rec
                (correlationUpdate_hasFields run) hrec with
                ⟨a, _, _, rfl⟩ | ⟨_, hne⟩
              · exfalso
                apply hA _ hrec
                rw [applyById_run_id_of_some _ now _ run.id rfl, hrid]
              · exact absurd hid hne
      | false =>
          obtain ⟨rec0, hrec0, hrun0⟩ := getByRunId_isNone_false db run.id hget
          have hnotpos : ¬ ((getWorkflowRunByRunId db run.id).isNone = true) :=
            by rw [hget]; exact Bool.false_ne_true
          by_cases hcomp : run.status = Status.completed
          · have hcalls : monitorStepCalls true (some n) run now db =
                [(n, completionUpdate run now)] := by
              show (if (getWorkflowRunByRunId db run.id).isNone = true then
                  [(n, correlationUpdate run)] else []) ++
                (if run.status = Status.completed then
                  [(n, completionUpdate run now)] else []) = _
              rw [if_neg hnotpos, if_pos hcomp]
              rfl
            have hstates :
                (monitorStep true (some n) mp (.ok (run :: rest)) now
                  db).states =
                [(updateWorkflowRunById db n (completionUpdate run now) now).1]
                := by
              show applyCalls now db (monitorStepCalls true (some n) run now db)
                = _
              rw [hcalls]
              rfl
            have hdb : (monitorStep true (some n) mp (.ok (run :: rest)) now
                db).db =
                (updateWorkflowRunById db n (completionUpdate run now) now).1 :=
              by
              rw [monitorStep_db_eq, hstates]
              rfl
            constructor
            · rw [hstates]
              refine List.chain'_cons.2 ⟨?_, List.chain'_singleton _⟩
              exact forall₂_update_of _ (fun a => statusLE_refl _) db n _ now
                (fun a _ _ => statusLE_completed _)
            · rw [hdb]
              intro hA
              exfalso
              apply hA (if rec0.id = n then
                applyById (completionUpdate run now) now rec0 else rec0)
              · rw [update_fst_eq_map db n _ now
                  (completionUpdate_hasFields run now)]
                exact List.mem_map_of_mem _ hrec0
              · by_cases h0 : rec0.id = n
                · rw [if_pos h0, applyById_run_id_of_none _ now _ rfl, hrun0,
                    hrid]
                · rw [if_neg h0, hrun0, hrid]
          · have hcalls : monitorStepCalls true (some n) run now db = [] := by
              show (if (getWorkflowRunByRunId db run.id).isNone = true then
                  [(n, correlationUpdate run)] else []) ++
                (if run.status = Status.completed then
                  [(n, completionUpdate run now)] else []) = _
              rw [if_neg hnotpos, if_neg hcomp]
              rfl
            have hstates :
                (monitorStep true (some n) mp (.ok (run :: rest)) now
                  db).states = [] := by
              show applyCalls now db (monitorStepCalls true (some n) run now db)
                = _
              rw [hcalls]
              rfl
            have hdb : (monitorStep true (some n) mp (.ok (run :: rest)) now
                db).db = db := by
              rw [monitorStep_db_eq, hstates]
              rfl
            constructor
            · rw [hstates]
              exact List.chain'_singleton _
            · rw [hdb]
              exact hJ

theorem monitorLoop_status_chain (n r : Nat) (mp : MonitorParams) :
    ∀ (fuel : Nat) (fetch : Nat → Except Unit (List Run)) (clock : Nat → Nat)
      (db : List WorkflowRun),
    (∀ i run rest, fetch i = .ok (run :: rest) → run.id = r) →
    ((∀ rec ∈ db, rec.run_id ≠ some r) →
      ∀ rec ∈ db, rec.id = n → rec.status = .queued) →
    List.Chain' dbStatusLE
      (db :: (monitorLoop true (some n) mp fetch clock fuel db).states) := by
  intro fuel
  induction fuel with
  | zero => intro fetch clock db _ _; exact List.chain'_singleton _
  | succ m ih =>
      intro fetch clock db hfetch hJ
      have hstep := monitorStep_status_chain n r mp (fetch 0) (clock 0) db
        (fun run rest h => hfetch 0 run rest h) hJ
      cases hdone : (monitorStep true (some n) mp (fetch 0) (clock 0) db).done
        with
      | true =>
          rw [monitorLoop, if_pos hdone]
          exact hstep.1
      | false =>
          have hne : ¬ ((monitorStep true (some n) mp (fetch 0) (clock 0)
            db).done = true) := by rw [hdone]; exact Bool.false_ne_true
          rw [monitorLoop, if_neg hne]
          have hrest := ih (fun k => fetch (k + 1)) (fun k => clock (k + 1))
            (monitorStep true (some n) mp (fetch 0) (clock 0) db).db
            (fun i run rest h => hfetch (i + 1) run rest h) hstep.2
          refine chain'_glue _ db _ hstep.1 ?_
          rw [← monitorStep_db_eq]
          exact hrest

/-- C1 (amended): within one `monitorWorkflowRun` invocation, provided
every fetched most-recent run carries the same external run id `r` (at most
one in-flight run of the workflow, the design assumption of the source) and
every tracked row starts in status `queued` (as the dispatcher creates it),
every individual database update moves each row's status only forward along
`queued → in_progress → completed`, never backward. -/
theorem monitor_status_monotone (n r : Nat) (mp : MonitorParams)
    (fetch : Nat → Except Unit (List Run)) (clock : Nat → Nat)
    (db : List WorkflowRun)
    (hfetch : ∀ i run rest, fetch i = .ok (run :: rest) → run.id = r)
    (hq : ∀ rec ∈ db, rec.id = n → rec.status = .queued) :
    List.Chain' dbStatusLE
      (db :: (monitorWorkflowRun true (some n) mp fetch clock db).states) :=
  monitorLoop_status_chain n r mp 60 fetch clock db hfetch fun _ => hq

/-- C1 counterexample: as stated the claim is false on the code.  With the
tracked record correlated to run 999 observed `in_progress`, a later poll
whose most recent run is a different run 1000 still `queued` makes the
correlation step overwrite the record with `status = queued` — a backward
move `in_progress → queued`. -/
theorem monitor_status_regresses :
    ¬ List.Chain' dbStatusLE
      ([rec0] ::
        (monitorWorkflowRun true (some 1) mp0 fetchTwoRuns (fun i => i)
          [rec0]).states) := by
  decide

/-- C1 witness: a run observed `in_progress` under a single stable run id
keeps the status chain monotone. -/
theorem monitor_status_monotone_witness :
    List.Chain' dbStatusLE
      ([rec0] ::
        (monitorWorkflowRun true (some 1) mp0 fetchForever (fun i => i)
          [rec0]).states) :=
  monitor_status_monotone 1 999 mp0 fetchForever (fun i => i) [rec0]
    (fun _ run rest h => by cases h; rfl) (by decide)

/-- C10 witness: a completed run 999 finalizes the record whose stored
`run_id` is 777 — a run never correlated with it. -/
theorem completion_finalizes_unconditionally_witness :
    ((monitorStep true (some 1) mp0 (.ok [run999]) 5 [rec777]).db.getD 0
      rec0).status = Status.completed ∧
    ((monitorStep true (some 1) mp0 (.ok [run999]) 5 [rec777]).db.getD 0
      rec0).conclusion = run999.conclusion ∧
    ((monitorStep true (some 1) mp0 (.ok [run999]) 5 [rec777]).db.getD 0
      rec0).completed_at = some 5 :=
  completion_finalizes_unconditionally 1 mp0 run999 [] 5 [rec777] rfl
    ((monitorStep true (some 1) mp0 (.ok [run999]) 5 [rec777]).db.getD 0 rec0)
    (by decide) (by decide)

/-- C8 counterexample: the two executions differing only in availability do
not return identical results — with persistence available the dispatcher
returns the inserted record id, without it the record id is null. -/
theorem availability_alters_dispatch_result :
    (dispatchWorkflow true (.ok 1) true 0 p0 []).result ≠
    (dispatchWorkflow false (.ok 1) true 0 p0 []).result := by
  decide

theorem correlation_requires_untagged (avail : Bool) (rid : Option Nat)
    (run : Run) (now : Nat) (db : List WorkflowRun) (m : Nat)
    (hmem : (m, correlationUpdate run) ∈
      monitorStepCalls avail rid run now db) :
    ∀ rec ∈ db, rec.run_id ≠ some run.id := by
  intro rec hrec
  cases avail with
  | false =>
      have hnil : monitorStepCalls false rid run now db = [] := by
        show ([] ++ (if run.status = Status.completed then [] else [])) = []
        rw [List.nil_append, ite_self]
      rw [hnil] at hmem
      exact absurd hmem (List.not_mem_nil _)
  | true =>
      cases rid with
      | none =>
          have hnil : monitorStepCalls true none run now db = [] := by
            show ([] ++ (if run.status = Status.completed then [] else [])) = []
            rw [List.nil_append, ite_self]
          rw [hnil] at hmem
          exact absurd hmem (List.not_mem_nil _)
      | some r' =>
          have hmem' : (m, correlationUpdate run) ∈
              (if (getWorkflowRunByRunId db run.id).isNone = true then
                [(r', correlationUpdate run)] else []) ++
              (if run.status = Status.completed then
                [(r', completionUpdate run now)] else []) := hmem
          rcases List.mem_append.1 hmem' with h | h
          · by_cases hg : (getWorkflowRunByRunId db run.id).isNone = true
            · exact (getByRunId_isNone_iff db run.id).1 hg rec hrec
            · rw [if_neg hg] at h
              exact absurd h (List.not_mem_nil _)
          · by_cases hc : run.status = Status.completed
            · rw [if_pos hc] at h
              have heq := List.mem_singleton.1 h
              have h2 : correlationUpdate run = completionUpdate run now :=
                congrArg Prod.snd heq
              have h3 : (correlationUpdate run).run_id =
                  (completionUpdate run now).run_id :=
                congrArg UpdateById.run_id h2
              exact absurd h3 (by simp [correlationUpdate, completionUpdate])
            · rw [if_neg hc] at h
              exact absurd h (List.not_mem_nil _)

theorem monitorStep_runId_chain (n r : Nat) (mp : MonitorParams)
    (fr : Except Unit (List Run)) (now : Nat) (db : List WorkflowRun)
    (hr : ∀ run rest, fr = .ok (run :: rest) → run.id = r)
    (hK : ∀ rec ∈ db, rec.id = n →
      rec.run_id = none ∨ rec.run_id = some r) :
    List.Chain' dbRunIdKept
      (db :: (monitorStep true (some n) mp fr now db).states) ∧
    (∀ rec ∈ (monitorStep true (some n) mp fr now db).db,
      rec.id = n → rec.run_id = none ∨ rec.run_id = some r) := by
  match fr with
  | .error _ => exact ⟨List.chain'_singleton _, hK⟩
  | .ok [] => exact ⟨List.chain'_singleton _, hK⟩
  | .ok (run :: rest) =>
      have hrid : run.id = r := hr run rest rfl
      cases hget : (getWorkflowRunByRunId db run.id).isNone with
      | true =>
          have hguard : ∀ rec ∈ db, rec.run_id ≠ some r := by
            intro rec hrec
            have hni := (getByRunId_isNone_iff db run.id).1 hget rec hrec
            rw [hrid] at hni
            exact hni
          have hcorrmono : List.Forall₂ runIdKept db
              (updateWorkflowRunById db n (correlationUpdate run) now).1 :=
            forall₂_update_of _ runIdKept_refl db n _ now
              (fun a ha haid => by
                have hnone : a.run_id = none :=
                  (hK a ha haid).resolve_right (hguard a ha)
                intro v hv
                rw [hnone] at hv
                cases hv)
          by_cases hcomp : run.status = Status.completed
          · have hcalls : monitorStepCalls true (some n) run now db =
                [(n, correlationUpdate run), (n, completionUpdate run now)] := by
              show (if (getWorkflowRunByRunId db run.id).isNone = true then
                  [(n, correlationUpdate run)] else []) ++
                (if run.status = Status.completed then
                  [(n, completionUpdate run now)] else []) = _
              rw [if_pos hget, if_pos hcomp]
              rfl
            have hstates :
                (monitorStep true (some n) mp (.ok (run :: rest)) now
                  db).states =
                [(updateWorkflowRunById db n (correlationUpdate run) now).1,
                 (updateWorkflowRunById
                   (updateWorkflowRunById db n (correlationUpdate run) now).1
                   n (completionUpdate run now) now).1] := by
              show applyCalls now db (monitorStepCalls true (some n) run now db)
                = _
              rw [hcalls]
              rfl
            have hdb : (monitorStep true (some n) mp (.ok (run :: rest)) now
                db).db =
                (updateWorkflowRunById
                  (updateWorkflowRunById db n (correlationUpdate run) now).1
                  n (completionUpdate run now) now).1 := by
              rw [monitorStep_db_eq, hstates]
              rfl
            constructor
            · rw [hstates]
              refine List.chain'_cons.2 ⟨hcorrmono, List.chain'_cons.2
                ⟨?_, List.chain'_singleton _⟩⟩
              exact forall₂_update_of _ runIdKept_refl _ n _ now
                (fun a _ _ =>
                  runIdKept_of_run_id_eq (applyById_run_id_of_none _ now _ rfl))
            · rw [hdb]
              intro rec hrec hid
              rcases mem_update_cases _ n _ now rec
                (completionUpdate_hasFields run now) hrec with
                ⟨a, ha1, haid, rfl⟩ | ⟨_, hne⟩
              · rcases mem_update_cases db n _ now a
                  (correlationUpdate_hasFields run) ha1 with
                  ⟨b, _, _, rfl⟩ | ⟨_, hbne⟩
                · right
                  rw [applyById_run_id_of_none _ now _ rfl,
                    applyById_run_id_of_some _ now _ run.id rfl, hrid]
                · exact absurd haid hbne
              · exact absurd hid hne
          · have hcalls : monitorStepCalls true (some n) run now db =
                [(n, correlationUpdate run)] := by
              show (if (getWorkflowRunByRunId db run.id).isNone = true then
                  [(n, correlationUpdate run)] else []) ++
                (if run.status = Status.completed then
                  [(n, completionUpdate run now)] else []) = _
              rw [if_pos hget, if_neg hcomp]
              rfl
            have hstates :
                (monitorStep true (some n) mp (.ok (run :: rest)) now
                  db).states =
                [(updateWorkflowRunById db n (correlationUpdate run) now).1] := by
              show applyCalls now db (monitorStepCalls true (some n) run now db)
                = _
              rw [hcalls]
              rfl
            have hdb : (monitorStep true (some n) mp (.ok (run :: rest)) now
                db).db =
                (updateWorkflowRunById db n (correlationUpdate run) now).1 := by
              rw [monitorStep_db_eq, hstates]
              rfl
            constructor
            · rw [hstates]
              exact List.chain'_cons.2 ⟨hcorrmono, List.chain'_singleton _⟩
            · rw [hdb]
              intro rec hrec hid
              rcases mem_update_cases db n _ now rec
                (correlationUpdate_hasFields run) hrec with
                ⟨a, _, _, rfl⟩ | ⟨_, hne⟩
              · right
                rw [applyById_run_id_of_some _ now _ run.id rfl, hrid]
              · exact absurd hid hne
      | false =>
          have hnotpos : ¬ ((getWorkflowRunByRunId db run.id).isNone = true) :=
            by rw [hget]; exact Bool.false_ne_true
          by_cases hcomp : run.status = Status.completed
          · have hcalls : monitorStepCalls true (some n) run now db =
                [(n, completionUpdate run now)] := by
              show (if (getWorkflowRunByRunId db run.id).isNone = true then
                  [(n, correlationUpdate run)] else []) ++
                (if run.status = Status.completed then
                  [(n, completionUpdate run now)] else []) = _
              rw [if_neg hnotpos, if_pos hcomp]
              rfl
            have hstates :
                (monitorStep true (some n) mp (.ok (run :: rest)) now
                  db).states =
                [(updateWorkflowRunById db n (completionUpdate run now) now).1]
                := by
              show applyCalls now db (monitorStepCalls true (some n) run now db)
                = _
              rw [hcalls]
              rfl
            have hdb : (monitorStep true (some n) mp (.ok (run :: rest)) now
                db).db =
                (updateWorkflowRunById db n (completionUpdate run now) now).1 :=
              by
              rw [monitorStep_db_eq, hstates]
              rfl
            constructor
            · rw [hstates]
              refine List.chain'_cons.2 ⟨?_, List.chain'_singleton _⟩
              exact forall₂_update_of _ runIdKept_refl db n _ now
                (fun a _ _ =>
                  runIdKept_of_run_id_eq (applyById_run_id_of_none _ now _ rfl))
            · rw [hdb]
              intro rec hrec hid
              rcases mem_update_cases db n _ now rec
                (completionUpdate_hasFields run now) hrec with
                ⟨a, ha, haid, rfl⟩ | ⟨_, hne⟩
              · rw [applyById_run_id_of_none _ now _ rfl]
                exact hK a ha haid
              · exact absurd hid hne
          · have hcalls : monitorStepCalls true (some n) run now db = [] := by
              show (if (getWorkflowRunByRunId db run.id).isNone = true then
                  [(n, correlationUpdate run)] else []) ++
                (if run.status = Status.completed then
                  [(n, completionUpdate run now)] else []) = _
              rw [if_neg hnotpos, if_neg hcomp]
              rfl
            have hstates :
                (monitorStep true (some n) mp (.ok (run :: rest)) now
                  db).states = [] := by
              show applyCalls now db (monitorStepCalls true (some n) run now db)
                = _
              rw [hcalls]
              rfl
            have hdb : (monitorStep true (some n) mp (.ok (run :: rest)) now
                db).db = db := by
              rw [monitorStep_db_eq, hstates]
              rfl
            constructor
            · rw [hstates]
              exact List.chain'_singleton _
            · rw [hdb]
              exact hK

theorem monitorLoop_runId_chain (n r : Nat) (mp : MonitorParams) :
    ∀ (fuel : Nat) (fetch : Nat → Except Unit (List Run)) (clock : Nat → Nat)
      (db : List WorkflowRun),
    (∀ i run rest, fetch i = .ok (run :: rest) → run.id = r) →
    (∀ rec ∈ db, rec.id = n → rec.run_id = none ∨ rec.run_id = some r) →
    List.Chain' dbRunIdKept
      (db :: (monitorLoop true (some n) mp fetch clock fuel db).states) := by
  intro fuel
  induction fuel with
  | zero => intro fetch clock db _ _; exact List.chain'_singleton _
  | succ m ih =>
      intro fetch clock db hfetch hK
      have hstep := monitorStep_runId_chain n r mp (fetch 0) (clock 0) db
        (fun run rest h => hfetch 0 run rest h) hK
      cases hdone : (monitorStep true (some n) mp (fetch 0) (clock 0) db).done
        with
      | true =>
          rw [monitorLoop, if_pos hdone]
          exact hstep.1
      | false =>
          have hne : ¬ ((monitorStep true (some n) mp (fetch 0) (clock 0)
            db).done = true) := by rw [hdone]; exact Bool.false_ne_true
          rw [monitorLoop, if_neg hne]
          have hrest := ih (fun k => fetch (k + 1)) (fun k => clock (k + 1))
            (monitorStep true (some n) mp (fetch 0) (clock 0) db).db
            (fun i run rest h => hfetch (i + 1) run rest h) hstep.2
          refine chain'_glue _ db _ hstep.1 ?_
          rw [← monitorStep_db_eq]
          exact hrest

/-- C2 (amended): the correlation step writes the observed run id, mapped
status, and start timestamp into the tracked record only when no record is
already tagged with that run's external id; and provided every fetched
most-recent run carries the same external run id and the tracked record
starts with no run id (as the dispatcher creates it), a run id once set is
never overwritten with a different value.  Without the single-run-id
proviso the correlation step can re-bind the record to a different newer
run, replacing its run id. -/
theorem monitor_run_id_stable (n r : Nat) (mp : MonitorParams)
    (fetch : Nat → Except Unit (List Run)) (clock : Nat → Nat)
    (db : List WorkflowRun)
    (hfetch : ∀ i run rest, fetch i = .ok (run :: rest) → run.id = r)
    (h0 : ∀ rec ∈ db, rec.id = n → rec.run_id = none) :
    List.Chain' dbRunIdKept
      (db :: (monitorWorkflowRun true (some n) mp fetch clock db).states) ∧
    (∀ (avail : Bool) (rid : Option Nat) (run : Run) (t : Nat)
       (db2 : List WorkflowRun) (m : Nat),
      (m, correlationUpdate run) ∈ monitorStepCalls avail rid run t db2 →
      ∀ rec ∈ db2, rec.run_id ≠ some run.id) :=
  ⟨monitorLoop_runId_chain n r mp 60 fetch clock db hfetch
    (fun rec hrec hid => Or.inl (h0 rec hrec hid)),
   fun avail rid run t db2 m hmem =>
    correlation_requires_untagged avail rid run t db2 m hmem⟩

/-- C2 counterexample: as stated the claim is false on the code.  The
record is correlated with run 999; a later poll whose most recent run is
1000 finds no record tagged 1000, so the correlation step overwrites the
record's `run_id` from 999 to 1000. -/
theorem monitor_run_id_overwritten :
    ¬ List.Chain' dbRunIdKept
      ([rec0] ::
        (monitorWorkflowRun true (some 1) mp0 fetchTwoRuns (fun i => i)
          [rec0]).states) := by
  decide

/-- C2 witness: under a single stable run id the tracked record's run id,
once set to 999, stays 999. -/
theorem monitor_run_id_stable_witness :
    List.Chain' dbRunIdKept
      ([rec0] ::
        (monitorWorkflowRun true (some 1) mp0 fetchForever (fun i => i)
          [rec0]).states) ∧
    (∀ (avail : Bool) (rid : Option Nat) (run : Run) (t : Nat)
       (db2 : List WorkflowRun) (m : Nat),
      (m, correlationUpdate run) ∈ monitorStepCalls avail rid run t db2 →
      ∀ rec ∈ db2, rec.run_id ≠ some run.id) :=
  monitor_run_id_stable 1 999 mp0 fetchForever (fun i => i) [rec0]
    (fun _ run rest h => by cases h; rfl) (by decide)

theorem applyById_conclusion_of_none (u : UpdateById) (now : Nat)
    (a : WorkflowRun) (h : u.conclusion = none) :
    (applyById u now a).conclusion = a.conclusion := by
  simp [applyById, h]

theorem applyById_conclusion_of_some (u : UpdateById) (now : Nat)
    (a : WorkflowRun) (c : Option Conclusion) (h : u.conclusion = some c) :
    (applyById u now a).conclusion = c := by
  simp [applyById, h]

theorem applyById_status_of_some (u : UpdateById) (now : Nat)
    (a : WorkflowRun) (s : Status) (h : u.status = some s) :
    (applyById u now a).status = s := by
  simp [applyById, h]

theorem monitorStepF_all_ok (avail : Bool) (rid : Option Nat)
    (mp : MonitorParams) (fr : Except Unit (List Run)) (now : Nat)
    (db : List WorkflowRun) :
    (monitorStepF avail rid fr true true now db).1 =
      (monitorStep avail rid mp fr now db).states ∧
    (monitorStepF avail rid fr true true now db).2 =
      (monitorStep avail rid mp fr now db).done := by
  match fr with
  | .error _ => exact ⟨rfl, rfl⟩
  | .ok [] => exact ⟨rfl, rfl⟩
  | .ok (run :: rest) =>
      cases avail with
      | false => exact ⟨rfl, rfl⟩
      | true =>
          cases rid with
          | none => exact ⟨rfl, rfl⟩
          | some r => exact ⟨rfl, rfl⟩

theorem monitorStepF_conclusion_inv (n : Nat) (fr : Except Unit (List Run))
    (corrOk : Bool) (now : Nat) (db : List WorkflowRun)
    (hcon : ∀ run rest, fr = .ok (run :: rest) →
      run.status = .completed → run.conclusion ≠ none)
    (hInv : conclusionInv db)
    (hTrk : ∀ rec ∈ db, rec.id = n →
      rec.conclusion = none ∧ rec.status ≠ .completed) :
    conclusionInv ((monitorStepF true (some n) fr corrOk true now
      db).1.getLastD db) ∧
    ((monitorStepF true (some n) fr corrOk true now db).2 = false →
      ∀ rec ∈ (monitorStepF true (some n) fr corrOk true now db).1.getLastD
        db, rec.id = n → rec.conclusion = none ∧ rec.status ≠ .completed) := by
  match fr with
  | .error _ => exact ⟨hInv, fun _ => hTrk⟩
  | .ok [] => exact ⟨hInv, fun _ => hTrk⟩
  | .ok (run :: rest) =>
      have hdonecomp : run.status = Status.completed →
          ∀ p : Prop, (monitorStepF true (some n) (.ok (run :: rest)) corrOk
            true now db).2 = false → p := by
        intro hcomp p hdone
        have hd : (monitorStepF true (some n) (.ok (run :: rest)) corrOk true
            now db).2 = true := by
          show decide (run.status = Status.completed) = true
          exact decide_eq_true hcomp
        rw [hd] at hdone
        cases hdone
      cases hc : corrOk && (getWorkflowRunByRunId db run.id).isNone with
      | true =>
          by_cases hcomp : run.status = Status.completed
          · have hstates : (monitorStepF true (some n) (.ok (run :: rest))
                corrOk true now db).1 =
                applyCalls now db
                  [(n, correlationUpdate run), (n, completionUpdate run now)]
                := by
              show applyCalls now db
                ((if (corrOk && (getWorkflowRunByRunId db run.id).isNone) =
                    true then [(n, correlationUpdate run)] else []) ++
                 (if run.status = Status.completed then
                    [(n, completionUpdate run now)] else [])) = _
              rw [if_pos hc, if_pos hcomp]
              rfl
            have hdb : (monitorStepF true (some n) (.ok (run :: rest)) corrOk
                true now db).1.getLastD db =
                (updateWorkflowRunById
                  (updateWorkflowRunById db n (correlationUpdate run) now).1
                  n (completionUpdate run now) now).1 := by
              rw [hstates]
              rfl
            refine ⟨?_, hdonecomp hcomp _⟩
            rw [hdb]
            intro rec hrec
            rcases mem_update_cases _ n _ now rec
              (completionUpdate_hasFields run now) hrec with
              ⟨a, _, _, rfl⟩ | ⟨hin1, hne⟩
            · rw [applyById_conclusion_of_some _ now _ run.conclusion rfl,
                applyById_status_of_some _ now _ Status.completed rfl]
              exact iff_of_true (hcon run rest rfl hcomp) rfl
            · rcases mem_update_cases db n _ now rec
                (correlationUpdate_hasFields run) hin1 with
                ⟨b, _, hbid, rfl⟩ | ⟨hbin, _⟩
              · exact absurd hbid hne
              · exact hInv rec hbin
          · have hstates : (monitorStepF true (some n) (.ok (run :: rest))
                corrOk true now db).1 =
                applyCalls now db [(n, correlationUpdate run)] := by
              show applyCalls now db
                ((if (corrOk && (getWorkflowRunByRunId db run.id).isNone) =
                    true then [(n, correlationUpdate run)] else []) ++
                 (if run.status = Status.completed then
                    [(n, completionUpdate run now)] else [])) = _
              rw [if_pos hc, if_neg hcomp]
              rfl
            have hdb : (monitorStepF true (some n) (.ok (run :: rest)) corrOk
                true now db).1.getLastD db =
                (updateWorkflowRunById db n (correlationUpdate run) now).1 := by
              rw [hstates]
              rfl
            rw [hdb]
            constructor
            · intro rec hrec
              rcases mem_update_cases db n _ now rec
                (correlationUpdate_hasFields run) hrec with
                ⟨a, ha, haid, rfl⟩ | ⟨hbin, _⟩
              · rw [applyById_conclusion_of_none _ now _ rfl,
                  applyById_status_of_some _ now _ run.status rfl,
                  (hTrk a ha haid).1]
                exact iff_of_false (fun hcc => hcc rfl) hcomp
              · exact hInv rec hbin
            · intro _ rec hrec hid
              rcases mem_update_cases db n _ now rec
                (correlationUpdate_hasFields run) hrec with
                ⟨a, ha, haid, rfl⟩ | ⟨_, hne⟩
              · rw [applyById_conclusion_of_none _ now _ rfl,
                  applyById_status_of_some _ now _ run.status rfl]
                exact ⟨(hTrk a ha haid).1, hcomp⟩
              · exact absurd hid hne
      | false =>
          have hnotpos :
              ¬ ((corrOk && (getWorkflowRunByRunId db run.id).isNone) = true)
            := by rw [hc]; exact Bool.false_ne_true
          by_cases hcomp : run.status = Status.completed
          · have hstates : (monitorStepF true (some n) (.ok (run :: rest))
                corrOk true now db).1 =
                applyCalls now db [(n, completionUpdate run now)] := by
              show applyCalls now db
                ((if (corrOk && (getWorkflowRunByRunId db run.id).isNone) =
                    true then [(n, correlationUpdate run)] else []) ++
                 (if run.status = Status.completed then
                    [(n, completionUpdate run now)] else [])) = _
              rw [if_neg hnotpos, if_pos hcomp]
              rfl
            have hdb : (monitorStepF true (some n) (.ok (run :: rest)) corrOk
                true now db).1.getLastD db =
                (updateWorkflowRunById db n (completionUpdate run now) now).1
                := by
              rw [hstates]
              rfl
            refine ⟨?_, hdonecomp hcomp _⟩
            rw [hdb]
            intro rec hrec
            rcases mem_update_cases db n _ now rec
              (completionUpdate_hasFields run now) hrec with
              ⟨a, _, _, rfl⟩ | ⟨hbin, _⟩
            · rw [applyById_conclusion_of_some _ now _ run.conclusion rfl,
                applyById_status_of_some _ now _ Status.completed rfl]
              exact iff_of_true (hcon run rest rfl hcomp) rfl
            · exact hInv rec hbin
          · have hstates : (monitorStepF true (some n) (.ok (run :: rest))
                corrOk true now db).1 = applyCalls now db [] := by
              show applyCalls now db
                ((if (corrOk && (getWorkflowRunByRunId db run.id).isNone) =
                    true then [(n, correlationUpdate run)] else []) ++
                 (if run.status = Status.completed then
                    [(n, completionUpdate run now)] else [])) = _
              rw [if_neg hnotpos, if_neg hcomp]
              rfl
            have hdb : (monitorStepF true (some n) (.ok (run :: rest)) corrOk
                true now db).1.getLastD db = db := by
              rw [hstates]
              rfl
            rw [hdb]
            exact ⟨hInv, fun _ => hTrk⟩

theorem monitorLoopF_conclusion_inv (n : Nat) :
    ∀ (fuel : Nat) (fetch : Nat → Except Unit (List Run))
      (corrOk complOk : Nat → Bool) (clock : Nat → Nat)
      (db : List WorkflowRun),
    (∀ i run rest, fetch i = .ok (run :: rest) →
      run.status = .completed → run.conclusion ≠ none) →
    (∀ i, complOk i = true) →
    conclusionInv db →
    (∀ rec ∈ db, rec.id = n →
      rec.conclusion = none ∧ rec.status ≠ .completed) →
    (∀ d ∈ (monitorLoopF true (some n) fetch corrOk complOk clock fuel
      db).stepDbs, conclusionInv d) ∧
    conclusionInv
      (monitorLoopF true (some n) fetch corrOk complOk clock fuel db).db := by
  intro fuel
  induction fuel with
  | zero =>
      intro fetch corrOk complOk clock db _ _ hInv _
      exact ⟨fun d hd => absurd hd (List.not_mem_nil _), hInv⟩
  | succ m ih =>
      intro fetch corrOk complOk clock db hcon hcompl hInv hTrk
      have hstep := monitorStepF_conclusion_inv n (fetch 0) (corrOk 0)
        (clock 0) db (fun run rest h => hcon 0 run rest h) hInv hTrk
      rw [monitorLoopF, hcompl 0]
      cases hdone : (monitorStepF true (some n) (fetch 0) (corrOk 0) true
        (clock 0) db).2 with
      | true =>
          rw [if_pos rfl]
          refine ⟨?_, hstep.1⟩
          intro d hd
          rw [List.mem_singleton.1 hd]
          exact hstep.1
      | false =>
          rw [if_neg Bool.false_ne_true]
          obtain ⟨ihs, ihf⟩ := ih (fun k => fetch (k + 1))
            (fun k => corrOk (k + 1)) (fun k => complOk (k + 1))
            (fun k => clock (k + 1))
            ((monitorStepF true (some n) (fetch 0) (corrOk 0) true (clock 0)
              db).1.getLastD db)
            (fun i run rest h => hcon (i + 1) run rest h)
            (fun i => hcompl (i + 1))
            hstep.1 (hstep.2 hdone)
          refine ⟨?_, ihf⟩
          intro d hd
          rcases List.mem_cons.1 hd with rfl | hd'
          · exact hstep.1
          · exact ihs d hd'

/-- C3 (amended): the invariant "`conclusion` is non-null iff `status =
completed`" holds after every complete poll iteration of the Monitor (and
at its return), provided it holds initially, the tracked record is not yet
completed, every fetched completed run carries a non-null conclusion, and
no completion update is lost to a swallowed storage error (correlation
writes may fail arbitrarily).  It does not hold after every individual
database update — when the first observed status is already `completed`,
the correlation update writes `status = completed` while the conclusion is
still null — and a swallowed completion-update failure after such a
correlation write leaves the violation standing even at return. -/
theorem monitor_conclusion_inv_fault_aware (n : Nat)
    (fetch : Nat → Except Unit (List Run)) (corrOk complOk : Nat → Bool)
    (clock : Nat → Nat) (db : List WorkflowRun)
    (hcon : ∀ i run rest, fetch i = .ok (run :: rest) →
      run.status = .completed → run.conclusion ≠ none)
    (hcompl : ∀ i, complOk i = true)
    (hInv : conclusionInv db)
    (hTrk : ∀ rec ∈ db, rec.id = n →
      rec.conclusion = none ∧ rec.status ≠ .completed) :
    (∀ d ∈ (monitorWorkflowRunF true (some n) fetch corrOk complOk clock
      db).stepDbs, conclusionInv d) ∧
    conclusionInv
      (monitorWorkflowRunF true (some n) fetch corrOk complOk clock db).db :=
  monitorLoopF_conclusion_inv n 60 fetch corrOk complOk clock db hcon hcompl
    hInv hTrk

/-- C3 counterexample: the claim as stated is false on the code, in two
ways.  First, even with every database call succeeding, the first update of
a poll that observes an already-completed run is the correlation update,
which leaves a record with `status = completed` and `conclusion = null`.
Second, when the subsequent completion update throws a storage error that
the source catches and swallows (workflow-runner.ts line 153), that
violation still stands when the monitor returns. -/
theorem monitor_conclusion_inv_refuted :
    (∃ d ∈ (monitorWorkflowRunF true (some 1) fetchCompleted (fun _ => true)
      (fun _ => true) (fun i => i) [rec0]).states, ¬ conclusionInv d) ∧
    ¬ conclusionInv
      (monitorWorkflowRunF true (some 1) fetchCompleted (fun _ => true)
        (fun _ => false) (fun i => i) [rec0]).db := by
  decide

/-- C3 witness: with run 999 completing with conclusion `success`, every
correlation write failing, and no completion write lost, the invariant
holds at the end of every poll iteration and at return. -/
theorem monitor_conclusion_inv_fault_aware_witness :
    (∀ d ∈ (monitorWorkflowRunF true (some 1) fetchCompleted (fun _ => false)
      (fun _ => true) (fun i => i) [rec0]).stepDbs, conclusionInv d) ∧
    conclusionInv
      (monitorWorkflowRunF true (some 1) fetchCompleted (fun _ => false)
        (fun _ => true) (fun i => i) [rec0]).db :=
  monitor_conclusion_inv_fault_aware 1 fetchCompleted (fun _ => false)
    (fun _ => true) (fun i => i) [rec0]
    (fun i run rest h => by
      match i with
      | 0 => cases h; intro _ hx; cases hx
      | j + 1 => exact Except.noConfusion h)
    (fun _ => rfl) (by decide) (by decide)

end Olimar
